import Mathlib

/-!
# Triple Timer Counter three-wave example (src/Timers/ttc_three_waves.c)

Shallow embedding of `TmrCtrExample`: the per-channel register computation
(prescaler, interval, match, counter control), the configuration loop over the
three timers of ttc0 and the polling loop of the run phase.

Machine integers are natural numbers reduced modulo 2^32 where the C code
computes in `u32`.  Register accesses are recorded as a trace of events.
Undefined behaviour of the C code (a read outside an array, a division by
zero) is an explicit outcome.  The polling loop takes the sequence of values
the status register returns and a bound on the number of loop iterations that
are simulated; `none` means the loop is still running after that many
iterations.
-/

namespace TtcThreeWaves

/-! ## Data model -/

/-- Settings of one timer, the C struct of the same name: the output frequency
(u32), the duty cycle as a percentage (u8) and the prescaler value (u8). -/
structure TmrCntrSetup where
  OutputHz : Nat
  OutputDutyCycle : Nat
  PrescalerValue : Nat
  deriving DecidableEq, Repr

/-- The field types of the C struct: u32, u8, u8. -/
def TmrCntrSetup.WellTyped (s : TmrCntrSetup) : Prop :=
  s.OutputHz < 2 ^ 32 ∧ s.OutputDutyCycle < 2 ^ 8 ∧ s.PrescalerValue < 2 ^ 8

/-- Registers of one timer counter that the example accesses (the
XTTCPS_*_OFFSET constants of xttcps_hw.h, kept symbolic). -/
inductive Reg where
  | CLK_CNTRL
  | CNT_CNTRL
  | INTERVAL_VAL
  | MATCH_0
  | ISR
  | IER
  deriving DecidableEq, Repr

/-- One access through XTtcPs_WriteReg or XTtcPs_ReadReg: the base address, the
register and the value written or returned. -/
inductive Event where
  | write (base : Nat) (reg : Reg) (value : Nat)
  | read (base : Nat) (reg : Reg) (value : Nat)
  deriving DecidableEq, Repr

/-- How an execution ends: one of the two return codes, or undefined behaviour
of the C code (array read out of bounds, division by zero). -/
inductive Outcome where
  | XST_SUCCESS
  | XST_FAILURE
  | undefined
  deriving DecidableEq, Repr

/-- Bit masks and the shift of xttcps_hw.h that the example uses.  The header is
not part of the repository, so the constants are a parameter of the model. -/
structure XTtcPsHw where
  XTTCPS_CLK_CNTRL_PS_VAL_SHIFT : Nat
  XTTCPS_CLK_CNTRL_PS_VAL_MASK : Nat
  XTTCPS_CLK_CNTRL_PS_EN_MASK : Nat
  XTTCPS_CNT_CNTRL_DIS_MASK : Nat
  XTTCPS_CNT_CNTRL_INT_MASK : Nat
  XTTCPS_CNT_CNTRL_MATCH_MASK : Nat
  XTTCPS_CNT_CNTRL_RST_MASK : Nat
  XTTCPS_CNT_CNTRL_EN_WAVE_MASK : Nat
  XTTCPS_IXR_INTERVAL_MASK : Nat
  deriving Repr

/-- The values of the Xilinx XTtcPs driver header: prescaler value in bits 4:1
of the clock control register and its enable in bit 0; counter control bits
DIS = 0x01, INT = 0x02, MATCH = 0x08, RST = 0x10, EN_WAVE = 0x20; interval
interrupt in bit 0 of the status register. -/
def xttcps : XTtcPsHw where
  XTTCPS_CLK_CNTRL_PS_VAL_SHIFT := 1
  XTTCPS_CLK_CNTRL_PS_VAL_MASK := 0x1E
  XTTCPS_CLK_CNTRL_PS_EN_MASK := 0x01
  XTTCPS_CNT_CNTRL_DIS_MASK := 0x01
  XTTCPS_CNT_CNTRL_INT_MASK := 0x02
  XTTCPS_CNT_CNTRL_MATCH_MASK := 0x08
  XTTCPS_CNT_CNTRL_RST_MASK := 0x10
  XTTCPS_CNT_CNTRL_EN_WAVE_MASK := 0x20
  XTTCPS_IXR_INTERVAL_MASK := 0x01

/-! ## Constants and tables of the source file -/

/-- Three counters of TTC0. -/
def TTC_NUM_DEVICES : Nat := 3

/-- Bound of the polling loop, 0xFF in the source. -/
def MAX_LOOP_COUNT : Nat := 0xFF

/-- Base addresses of timer0, timer1 and timer2 of ttc0, with the values the
source documents for XPAR_XTTCPS_0_BASEADDR .. XPAR_XTTCPS_2_BASEADDR. -/
def TimerCounterBaseAddr : List Nat := [0xF8001000, 0xF8001004, 0xF8001008]

/-- Prescaler setting for the prescaler values 0..15, and 1 (no prescaler) for
the value 16. -/
def PrescalerSettings : List Nat :=
  [2, 4, 8, 16, 32, 64, 128, 256, 512, 1024, 2048, 4096, 8192, 16384,
   32768, 65536, 1]

/-- Settings for frequency, duty cycle and prescaler index of the three timers,
five groups of three. -/
def SettingsTable : List TmrCntrSetup :=
  [ ⟨10, 50, 6⟩, ⟨10, 25, 6⟩, ⟨10, 75, 6⟩,
    ⟨100, 50, 3⟩, ⟨200, 25, 2⟩, ⟨400, 12, 1⟩,
    ⟨500, 50, 1⟩, ⟨1000, 50, 0⟩, ⟨5000, 50, 16⟩,
    ⟨10000, 50, 16⟩, ⟨50000, 50, 16⟩, ⟨100000, 50, 16⟩,
    ⟨500000, 50, 16⟩, ⟨1000000, 50, 16⟩, ⟨5000000, 50, 16⟩ ]

/-- Number of entries of a settings table, sizeof(table)/sizeof(entry). -/
def SETTINGS_TABLE_SIZE (table : List TmrCntrSetup) : Nat := table.length

/-! ## 32-bit arithmetic -/

/-- Reduction of a value to the u32 range. -/
def u32 (x : Nat) : Nat := x % 2 ^ 32

/-- Bitwise complement of a u32 value. -/
def not32 (x : Nat) : Nat := u32 x ^^^ (2 ^ 32 - 1)

/-! ## Per-channel computations of TmrCtrExample -/

/-- Value for the clock control register: the prescaler value shifted into its
field and the enable bit when the prescaler value is below 16, else 0. -/
def clkCntrlValue (hw : XTtcPsHw) (CurrSetup : TmrCntrSetup) : Nat :=
  if 16 > CurrSetup.PrescalerValue then
    (u32 (CurrSetup.PrescalerValue <<< hw.XTTCPS_CLK_CNTRL_PS_VAL_SHIFT)
        &&& hw.XTTCPS_CLK_CNTRL_PS_VAL_MASK)
      ||| hw.XTTCPS_CLK_CNTRL_PS_EN_MASK
  else 0

/-- The u32 divisor of the interval computation,
(u32) (PrescalerSettings[PrescalerValue] * OutputHz); none when the index is
outside PrescalerSettings. -/
def intervalDivisor (CurrSetup : TmrCntrSetup) : Option Nat :=
  match PrescalerSettings[CurrSetup.PrescalerValue]? with
  | none => none
  | some D => some (u32 (D * CurrSetup.OutputHz))

/-- IntervalValue = PCLK_FREQ_HZ / (u32) (PrescalerSettings[..] * OutputHz), stored
in a u32; none when the C expression is undefined (index outside
PrescalerSettings, or divisor zero). -/
def intervalValue (PCLK_FREQ_HZ : Nat) (CurrSetup : TmrCntrSetup) : Option Nat :=
  match intervalDivisor CurrSetup with
  | none => none
  | some d => if d = 0 then none else some (u32 (PCLK_FREQ_HZ / d))

/-- MatchValue = (IntervalValue * OutputDutyCycle) / 100 in u32 arithmetic. -/
def matchValue (IntervalValue : Nat) (OutputDutyCycle : Nat) : Nat :=
  u32 (IntervalValue * OutputDutyCycle) / 100

/-- Value for the counter control register,
~(DIS | EN_WAVE) & (INT | MATCH | RST). -/
def cntCntrlValue (hw : XTtcPsHw) : Nat :=
  not32 (hw.XTTCPS_CNT_CNTRL_DIS_MASK ||| hw.XTTCPS_CNT_CNTRL_EN_WAVE_MASK)
    &&& (hw.XTTCPS_CNT_CNTRL_INT_MASK ||| hw.XTTCPS_CNT_CNTRL_MATCH_MASK
          ||| hw.XTTCPS_CNT_CNTRL_RST_MASK)

/-- The range test applied to IntervalValue and to MatchValue:
(65535 < v) || (4 > v). -/
def outOfRange (v : Nat) : Bool := decide (65535 < v) || decide (4 > v)

/-- What one pass of the configuration loop did: the register accesses in order,
and the outcome when the pass left the function (none: go on). -/
structure Pass where
  trace : List Event
  stop : Option Outcome
  deriving DecidableEq, Repr

/-- Body of the configuration loop for the timer at TmrCtrBaseAddress, where
entry is the settings-table element CurrSetup points to (none when it lies
outside the table). -/
def configChannel (hw : XTtcPsHw) (PCLK_FREQ_HZ : Nat) (TmrCtrBaseAddress : Nat)
    (entry : Option TmrCntrSetup) : Pass :=
  match entry with
  | none => ⟨[], some Outcome.undefined⟩
  | some CurrSetup =>
    let w1 := Event.write TmrCtrBaseAddress Reg.CLK_CNTRL (clkCntrlValue hw CurrSetup)
    match intervalValue PCLK_FREQ_HZ CurrSetup with
    | none => ⟨[w1], some Outcome.undefined⟩
    | some IntervalValue =>
      if outOfRange IntervalValue then ⟨[w1], some Outcome.XST_FAILURE⟩
      else
        let w2 := Event.write TmrCtrBaseAddress Reg.INTERVAL_VAL IntervalValue
        let MatchValue := matchValue IntervalValue CurrSetup.OutputDutyCycle
        if outOfRange MatchValue then ⟨[w1, w2], some Outcome.XST_FAILURE⟩
        else
          ⟨[w1, w2,
            Event.write TmrCtrBaseAddress Reg.MATCH_0 MatchValue,
            Event.write TmrCtrBaseAddress Reg.CNT_CNTRL (cntCntrlValue hw),
            Event.write TmrCtrBaseAddress Reg.IER hw.XTTCPS_IXR_INTERVAL_MASK],
           none⟩

/-! ## The configuration loop and the polling loop -/

/-- State at the end of the configuration loop: the accesses made, the last
value assigned to the variable TmrCtrBaseAddress, and the outcome when the loop
left the function. -/
structure LoopState where
  trace : List Event
  TmrCtrBaseAddress : Nat
  stop : Option Outcome
  deriving DecidableEq, Repr

/-- The loop for (LoopCount = ..; LoopCount < TTC_NUM_DEVICES; LoopCount++) with n
iterations left to run, started at LoopCount. -/
def configLoop (hw : XTtcPsHw) (PCLK_FREQ_HZ : Nat) (table : List TmrCntrSetup)
    (SettingsTableOffset : Nat) : Nat → Nat → Nat → LoopState
  | 0, _, TmrCtrBaseAddress => ⟨[], TmrCtrBaseAddress, none⟩
  | n + 1, LoopCount, _ =>
    let TmrCtrBaseAddress := TimerCounterBaseAddr.getD LoopCount 0
    let p := configChannel hw PCLK_FREQ_HZ TmrCtrBaseAddress
      table[SettingsTableOffset + LoopCount]?
    match p.stop with
    | some o => ⟨p.trace, TmrCtrBaseAddress, some o⟩
    | none =>
      let r := configLoop hw PCLK_FREQ_HZ table SettingsTableOffset n (LoopCount + 1)
        TmrCtrBaseAddress
      ⟨p.trace ++ r.trace, r.TmrCtrBaseAddress, r.stop⟩

/-- The test 0 != (XTTCPS_IXR_INTERVAL_MASK & RegValue) of the polling loop. -/
def intervalBitSet (hw : XTtcPsHw) (RegValue : Nat) : Bool :=
  decide (0 ≠ (hw.XTTCPS_IXR_INTERVAL_MASK &&& RegValue))

/-- The loop while (LoopCount < MAX_LOOP_COUNT): isr i is the value the i-th read of
the status register returns, fuel bounds the number of iterations simulated.
The result is the trace of the loop, or none when the loop has not ended after
fuel iterations. -/
def pollLoop (hw : XTtcPsHw) (TmrCtrBaseAddress : Nat) (isr : Nat → Nat) :
    Nat → Nat → Nat → Option (List Event)
  | 0, _, LoopCount => if LoopCount < MAX_LOOP_COUNT then none else some []
  | fuel + 1, i, LoopCount =>
    if LoopCount < MAX_LOOP_COUNT then
      let RegValue := u32 (isr i)
      let LoopCount1 := if intervalBitSet hw RegValue then LoopCount + 1 else LoopCount
      match pollLoop hw TmrCtrBaseAddress isr fuel (i + 1) LoopCount1 with
      | none => none
      | some rest =>
        some (Event.read TmrCtrBaseAddress Reg.ISR RegValue
              :: Event.write TmrCtrBaseAddress Reg.ISR RegValue :: rest)
    else some []

/-- A finished execution of TmrCtrExample: the register accesses and the way it
ended. -/
structure Run where
  trace : List Event
  result : Outcome
  deriving DecidableEq, Repr

/-- The function TmrCtrExample.  PCLK_FREQ_HZ, the settings table and the hardware
constants are parameters; isr is the sequence of status-register values and fuel
the number of polling iterations simulated (none: still polling). -/
def TmrCtrExample (hw : XTtcPsHw) (PCLK_FREQ_HZ : Nat) (table : List TmrCntrSetup)
    (isr : Nat → Nat) (fuel : Nat) (SettingsTableOffset : Nat) : Option Run :=
  if SettingsTableOffset + 2 > SETTINGS_TABLE_SIZE table then
    some ⟨[], Outcome.XST_FAILURE⟩
  else
    let c := configLoop hw PCLK_FREQ_HZ table SettingsTableOffset TTC_NUM_DEVICES 0 0
    match c.stop with
    | some o => some ⟨c.trace, o⟩
    | none =>
      match pollLoop hw c.TmrCtrBaseAddress isr fuel 0 0 with
      | none => none
      | some t => some ⟨c.trace ++ t, Outcome.XST_SUCCESS⟩

/-! ## Observers used in the statements -/

/-- The pass of the configuration loop that runs with the given LoopCount: timer
TimerCounterBaseAddr[LoopCount], entry SettingsTable[SettingsTableOffset + LoopCount]. -/
def channelPass (hw : XTtcPsHw) (PCLK_FREQ_HZ : Nat) (table : List TmrCntrSetup)
    (SettingsTableOffset LoopCount : Nat) : Pass :=
  configChannel hw PCLK_FREQ_HZ (TimerCounterBaseAddr.getD LoopCount 0)
    table[SettingsTableOffset + LoopCount]?

/-- Channel k is the first whose range check fails: the passes before it go on to
the next channel and the pass of channel k returns XST_FAILURE. -/
def FirstToFail (hw : XTtcPsHw) (PCLK_FREQ_HZ : Nat) (table : List TmrCntrSetup)
    (SettingsTableOffset k : Nat) : Prop :=
  k < TTC_NUM_DEVICES ∧
  (∀ j, j < k → (channelPass hw PCLK_FREQ_HZ table SettingsTableOffset j).stop = none) ∧
  (channelPass hw PCLK_FREQ_HZ table SettingsTableOffset k).stop
    = some Outcome.XST_FAILURE

instance (hw : XTtcPsHw) (PCLK_FREQ_HZ : Nat) (table : List TmrCntrSetup)
    (SettingsTableOffset k : Nat) :
    Decidable (FirstToFail hw PCLK_FREQ_HZ table SettingsTableOffset k) :=
  inferInstanceAs (Decidable (_ ∧ _ ∧ _))

/-- The accesses of k consecutive passes of the configuration loop, the first of
them running with the given LoopCount. -/
def passesTrace (hw : XTtcPsHw) (PCLK_FREQ_HZ : Nat) (table : List TmrCntrSetup)
    (SettingsTableOffset : Nat) : Nat → Nat → List Event
  | 0, _ => []
  | k + 1, LoopCount =>
    (channelPass hw PCLK_FREQ_HZ table SettingsTableOffset LoopCount).trace
      ++ passesTrace hw PCLK_FREQ_HZ table SettingsTableOffset k (LoopCount + 1)

/-- The configuration phase succeeds: the boundary check passes and each of the
three passes goes on. -/
def ConfigSucceeds (hw : XTtcPsHw) (PCLK_FREQ_HZ : Nat) (table : List TmrCntrSetup)
    (SettingsTableOffset : Nat) : Prop :=
  SettingsTableOffset + 2 ≤ SETTINGS_TABLE_SIZE table ∧
  ∀ j, j < TTC_NUM_DEVICES →
    (channelPass hw PCLK_FREQ_HZ table SettingsTableOffset j).stop = none

instance (hw : XTtcPsHw) (PCLK_FREQ_HZ : Nat) (table : List TmrCntrSetup)
    (SettingsTableOffset : Nat) :
    Decidable (ConfigSucceeds hw PCLK_FREQ_HZ table SettingsTableOffset) :=
  inferInstanceAs (Decidable (_ ∧ _))

/-- Register contents as a fake register interface sees them: the value last
written to a register of a base address. -/
def RegFile : Type := Nat → Reg → Nat

/-- Register contents after a trace of accesses, a write replacing the content of
the register written. -/
def regsAfter (rf : RegFile) : List Event → RegFile
  | [] => rf
  | Event.write b r v :: es =>
    regsAfter (fun b1 r1 => if b1 = b ∧ r1 = r then v else rf b1 r1) es
  | Event.read _ _ _ :: es => regsAfter rf es

/-- Whether an event is a write to some register of the given base address. -/
def Event.writesTo (base : Nat) : Event → Bool
  | Event.write b _ _ => decide (b = base)
  | Event.read _ _ _ => false

/-- Whether an event is a write to the given register of the given base address. -/
def Event.writesReg (base : Nat) (reg : Reg) : Event → Bool
  | Event.write b r _ => decide (b = base) && decide (r = reg)
  | Event.read _ _ _ => false

/-- Whether an event is a read of the status register of the given base address. -/
def Event.readsStatus (base : Nat) : Event → Bool
  | Event.read b r _ => decide (b = base) && decide (r = Reg.ISR)
  | Event.write _ _ _ => false

/-- Whether an event is a read of the status register of the given base address
that returned a value with the interval bit set. -/
def Event.intervalEvent (hw : XTtcPsHw) (base : Nat) : Event → Bool
  | Event.read b r v =>
    decide (b = base) && decide (r = Reg.ISR) && intervalBitSet hw v
  | Event.write _ _ _ => false

/-- Number of the status values isr i, isr (i+1), .., isr (i+n-1) that have the
interval bit set. -/
def intervalHits (hw : XTtcPsHw) (isr : Nat → Nat) (i : Nat) : Nat → Nat
  | 0 => 0
  | n + 1 =>
    (if intervalBitSet hw (u32 (isr i)) then 1 else 0) + intervalHits hw isr (i + 1) n

/-- A settings entry that the interval computation can take: positive frequency,
duty cycle of at most 100 percent, prescaler value within PrescalerSettings, and a
product of prescaler setting and frequency that fits in 32 bits. -/
def TmrCntrSetup.WellFormed (s : TmrCntrSetup) : Prop :=
  0 < s.OutputHz ∧ s.OutputDutyCycle ≤ 100 ∧ s.PrescalerValue ≤ 16 ∧
  PrescalerSettings.getD s.PrescalerValue 0 * s.OutputHz < 2 ^ 32

instance (s : TmrCntrSetup) : Decidable s.WellFormed :=
  inferInstanceAs (Decidable (_ ∧ _ ∧ _ ∧ _))

end TtcThreeWaves

/-!
# Sine PWM template (src/Timers/axi_timer_pwm_student.c)

Program variables are fields of a state; the calls into the Xilinx drivers (GPIO,
private timer, AXI timer) are recorded in order.  Values read from the hardware
(the interrupt status and the switches) are inputs of the functions that read
them.
-/

namespace AxiTimerPwm

/-! ## Constants of the source file -/

/-- GPIO port 1 for LEDs. -/
def LED_CHANNEL : Nat := 1

/-- GPIO port 2 for SWITCHES. -/
def SW_CHANNEL : Nat := 2

/-- PWM period of 80 kHz in ns. -/
def PWM_PERIOD : Nat := 12500

/-- Size of the sine table. -/
def SINE_TABLE_SIZE : Nat := 50

/-- Load value of the private timer for the 60 Hz sine wave. -/
def TIMER_LOAD_VALUE_60 : Int := 55582

/-- Prescaler of the private timer. -/
def TIMER_PRESCALER : Nat := 1

/-- Clock of the private timer in Hz, 667 MHz / 2 as the source states it. -/
def PERIPHCLK : Nat := 333500000

/-- The value TRUE of the Xilinx headers. -/
def TRUE : Int := 1

/-- The value FALSE of the Xilinx headers. -/
def FALSE : Int := 0

/-- Constants that the source does not fix: the load values it leaves as XXXXX for
the 100 Hz, 500 Hz, 1 kHz and 1 Hz waves, and the mask XGPIO_IR_CH2_MASK of the GPIO
driver header behind SW_INT_MASK. -/
structure Params where
  TIMER_LOAD_VALUE_100 : Int
  TIMER_LOAD_VALUE_500 : Int
  TIMER_LOAD_VALUE_1K : Int
  TIMER_LOAD_VALUE_1 : Int
  SW_INT_MASK : Nat
  deriving Repr

/-- PWM high times of the sine table, in ns. -/
def sine : List Int :=
  [500000, 562667, 624345, 684062, 740877, 793893, 842274,
   885257, 922164, 952414, 975528, 991144, 999013, 999013, 991144,
   975528, 952414, 922164, 885257, 842274, 793893, 740877, 684062,
   624345, 562667, 500000, 437333, 375655, 315938, 259123, 206107,
   157726, 114743, 77836, 47586, 24472, 8856, 987, 987, 8856, 24472,
   47586, 77836, 114743, 157726, 206107, 259123, 315938, 375655, 437333]

/-! ## State and driver calls -/

/-- A call into a Xilinx driver, with the arguments that matter and, for a read, the
value returned. -/
inductive Call where
  | XGpio_InterruptDisable (mask : Nat)
  | XGpio_InterruptGetStatus (returned : Nat)
  | XGpio_DiscreteRead (channel : Nat) (returned : Nat)
  | XGpio_DiscreteWrite (channel : Nat) (value : Int)
  | XGpio_InterruptClear (mask : Nat)
  | XGpio_InterruptEnable (mask : Nat)
  | XScuTimer_Stop
  | XScuTimer_LoadTimer (value : Int)
  | XScuTimer_Start
  | XTmrCtr_PwmDisable
  | XTmrCtr_PwmConfigure (period : Nat) (highTime : Int)
  | XTmrCtr_PwmEnable
  deriving DecidableEq, Repr

/-- The variables shared between interrupt and non-interrupt code, the locals pos
and HighTime of main, and the driver calls made so far. -/
structure State where
  PrivateTimerLoadValue : Int
  SwitchValue : Int
  PeriodTimerHit : Int
  HighTimerHit : Int
  PrivateTimerHit : Int
  pos : Nat
  HighTime : Int
  calls : List Call
  deriving DecidableEq, Repr

/-- Conversion of a u32 value to int, as in the assignment of the value read from
the switches to SwitchValue. -/
def int_of_u32 (v : Nat) : Int :=
  if v % 2 ^ 32 < 2 ^ 31 then ((v % 2 ^ 32 : Nat) : Int)
  else ((v % 2 ^ 32 : Nat) : Int) - 2 ^ 32

/-! ## The functions of the source -/

/-- The switch statement on SwitchValue in main. -/
def main_selectLoadValue (c : Params) (SwitchValue : Int) : Int :=
  if SwitchValue = 0 then TIMER_LOAD_VALUE_60
  else if SwitchValue = 1 then c.TIMER_LOAD_VALUE_100
  else if SwitchValue = 2 then c.TIMER_LOAD_VALUE_500
  else if SwitchValue = 3 then c.TIMER_LOAD_VALUE_1K
  else c.TIMER_LOAD_VALUE_1

/-- The first switch reading of main: read the switches (sw is the value read),
write them to the LEDs and select the load value of the private timer. -/
def main_firstReading (c : Params) (sw : Nat) (s : State) : State :=
  let s1 : State :=
    { s with SwitchValue := int_of_u32 sw,
             calls := s.calls ++ [Call.XGpio_DiscreteRead SW_CHANNEL sw] }
  let s2 : State :=
    { s1 with calls := s1.calls ++ [Call.XGpio_DiscreteWrite LED_CHANNEL s1.SwitchValue] }
  { s2 with PrivateTimerLoadValue := main_selectLoadValue c s2.SwitchValue }

/-- The switch statement on SwitchValue in SW_Intr_Handler. -/
def SW_Intr_selectLoadValue (c : Params) (SwitchValue : Int) : Int :=
  if SwitchValue = 0 then TIMER_LOAD_VALUE_60
  else if SwitchValue = 1 then c.TIMER_LOAD_VALUE_100
  else if SwitchValue = 2 then c.TIMER_LOAD_VALUE_500
  else if SwitchValue = 3 then c.TIMER_LOAD_VALUE_1K
  else c.TIMER_LOAD_VALUE_1

/-- The interrupt handler of the switches; status is the value that
XGpio_InterruptGetStatus returns and sw the value read from the switches. -/
def SW_Intr_Handler (c : Params) (status sw : Nat) (s : State) : State :=
  let s1 : State :=
    { s with calls := s.calls ++ [Call.XGpio_InterruptDisable c.SW_INT_MASK] }
  let s2 : State :=
    { s1 with calls := s1.calls ++ [Call.XGpio_InterruptGetStatus status] }
  if (status &&& c.SW_INT_MASK) ≠ c.SW_INT_MASK then s2
  else
    let s3 : State :=
      { s2 with SwitchValue := int_of_u32 sw,
                calls := s2.calls ++ [Call.XGpio_DiscreteRead SW_CHANNEL sw] }
    let s4 : State :=
      { s3 with calls := s3.calls ++ [Call.XGpio_DiscreteWrite LED_CHANNEL s3.SwitchValue] }
    let s5 : State :=
      { s4 with PrivateTimerLoadValue := SW_Intr_selectLoadValue c s4.SwitchValue }
    { s5 with calls := s5.calls ++
        [Call.XScuTimer_Stop,
         Call.XScuTimer_LoadTimer s5.PrivateTimerLoadValue,
         Call.XScuTimer_Start,
         Call.XGpio_InterruptClear c.SW_INT_MASK,
         Call.XGpio_InterruptEnable c.SW_INT_MASK] }

/-- The interrupt handler of the private timer. -/
def PrivateTimerIntrHandler (s : State) : State :=
  { s with PrivateTimerHit := TRUE }

/-- Modelled from the spec: the body of the test of PrivateTimerHit in the main loop,
which the source leaves to be written (STUDENT WORK #3).  Following the
specification of the modulator: disable the waveform output, write the high time
taken from the sine table at the cursor, enable the output again, clear the
tick-pending flag and advance the cursor to (pos + 1) mod N.  The result is none
when the cursor lies outside the table. -/
def serviceTick (s : State) : Option State :=
  match sine[s.pos]? with
  | none => none
  | some h =>
    some { s with HighTime := h,
                  PrivateTimerHit := FALSE,
                  pos := (s.pos + 1) % SINE_TABLE_SIZE,
                  calls := s.calls ++
                    [Call.XTmrCtr_PwmDisable,
                     Call.XTmrCtr_PwmConfigure PWM_PERIOD h,
                     Call.XTmrCtr_PwmEnable] }

/-- One pass of the loop while(1) of main: the tick is serviced when PrivateTimerHit
is set. -/
def mainLoopPass (s : State) : Option State :=
  if s.PrivateTimerHit ≠ 0 then serviceTick s else some s

/-- One serviced tick: the private timer interrupt, then a pass of the main loop. -/
def servicedTick (s : State) : Option State :=
  mainLoopPass (PrivateTimerIntrHandler s)

/-- A number of serviced ticks in a row. -/
def servicedTicks : Nat → State → Option State
  | 0, s => some s
  | n + 1, s =>
    match servicedTick s with
    | none => none
    | some s1 => servicedTicks n s1

/-! ## Observers used in the statements -/

/-- Whether a call is a call into the AXI timer driver, which holds the PWM
carrier. -/
def Call.isAxiTimer : Call → Bool
  | Call.XTmrCtr_PwmDisable => true
  | Call.XTmrCtr_PwmConfigure _ _ => true
  | Call.XTmrCtr_PwmEnable => true
  | _ => false

/-- Whether a call is a call into the private timer driver. -/
def Call.isScuTimer : Call → Bool
  | Call.XScuTimer_Stop => true
  | Call.XScuTimer_LoadTimer _ => true
  | Call.XScuTimer_Start => true
  | _ => false

/-- Whether the interrupt of the given mask is enabled after a sequence of calls,
given whether it was enabled before: the last enable or disable call with that mask
decides. -/
def intrEnabledAfter (mask : Nat) (before : Bool) : List Call → Bool
  | [] => before
  | Call.XGpio_InterruptEnable m :: cs =>
    intrEnabledAfter mask (if m = mask then true else before) cs
  | Call.XGpio_InterruptDisable m :: cs =>
    intrEnabledAfter mask (if m = mask then false else before) cs
  | _ :: cs => intrEnabledAfter mask before cs

end AxiTimerPwm

namespace TtcThreeWaves

/-! ## Auxiliary facts: arithmetic and the per-channel pass -/

theorem outOfRange_iff (v : Nat) : outOfRange v = true ↔ (v < 4 ∨ 65535 < v) := by
  simp only [outOfRange, Bool.or_eq_true, decide_eq_true_eq]
  omega

theorem outOfRange_eq_false_iff (v : Nat) : outOfRange v = false ↔ (4 ≤ v ∧ v ≤ 65535) := by
  rw [← Bool.not_eq_true, outOfRange_iff]
  omega

theorem u32_of_lt {x : Nat} (h : x < 2 ^ 32) : u32 x = x :=
  Nat.mod_eq_of_lt h

theorem prescalerSettings_pos {p D : Nat} (h : PrescalerSettings[p]? = some D) : 0 < D := by
  have hp : p < 17 := by
    have := (List.getElem?_eq_some.mp h).1
    simpa [PrescalerSettings] using this
  interval_cases p <;> simp [PrescalerSettings] at h <;> omega

theorem intervalDivisor_of_fit {OutputHz duty p D : Nat}
    (hD : PrescalerSettings[p]? = some D) (hfit : D * OutputHz < 2 ^ 32) :
    intervalDivisor ⟨OutputHz, duty, p⟩ = some (D * OutputHz) := by
  simp [intervalDivisor, hD, u32_of_lt hfit]

theorem intervalValue_of_fit {PCLK_FREQ_HZ OutputHz duty p D : Nat}
    (hclk : PCLK_FREQ_HZ < 2 ^ 32) (hD : PrescalerSettings[p]? = some D)
    (hHz : 0 < OutputHz) (hfit : D * OutputHz < 2 ^ 32) :
    intervalValue PCLK_FREQ_HZ ⟨OutputHz, duty, p⟩
      = some (PCLK_FREQ_HZ / (D * OutputHz)) := by
  have hpos : 0 < D * OutputHz := Nat.mul_pos (prescalerSettings_pos hD) hHz
  have hne : D * OutputHz ≠ 0 := Nat.pos_iff_ne_zero.mp hpos
  have hq : PCLK_FREQ_HZ / (D * OutputHz) < 2 ^ 32 :=
    lt_of_le_of_lt (Nat.div_le_self _ _) hclk
  simp [intervalValue, intervalDivisor_of_fit hD hfit, hne, u32_of_lt hq]

theorem matchValue_exact {IntervalValue d : Nat} (hi : IntervalValue ≤ 65535)
    (hd : d ≤ 100) : matchValue IntervalValue d = IntervalValue * d / 100 := by
  have hprod : IntervalValue * d ≤ 65535 * 100 := Nat.mul_le_mul hi hd
  have hlt : IntervalValue * d < 2 ^ 32 := lt_of_le_of_lt hprod (by norm_num)
  simp [matchValue, u32_of_lt hlt]

/-- The pass over a channel whose interval is defined, as a case distinction on the
two range tests. -/
theorem configChannel_of_interval (hw : XTtcPsHw) (PCLK_FREQ_HZ base : Nat)
    (CurrSetup : TmrCntrSetup) (iv : Nat)
    (h : intervalValue PCLK_FREQ_HZ CurrSetup = some iv) :
    configChannel hw PCLK_FREQ_HZ base (some CurrSetup) =
      if outOfRange iv then
        ⟨[Event.write base Reg.CLK_CNTRL (clkCntrlValue hw CurrSetup)],
          some Outcome.XST_FAILURE⟩
      else if outOfRange (matchValue iv CurrSetup.OutputDutyCycle) then
        ⟨[Event.write base Reg.CLK_CNTRL (clkCntrlValue hw CurrSetup),
          Event.write base Reg.INTERVAL_VAL iv], some Outcome.XST_FAILURE⟩
      else
        ⟨[Event.write base Reg.CLK_CNTRL (clkCntrlValue hw CurrSetup),
          Event.write base Reg.INTERVAL_VAL iv,
          Event.write base Reg.MATCH_0 (matchValue iv CurrSetup.OutputDutyCycle),
          Event.write base Reg.CNT_CNTRL (cntCntrlValue hw),
          Event.write base Reg.IER hw.XTTCPS_IXR_INTERVAL_MASK], none⟩ := by
  simp only [configChannel, h]

/-! ## Auxiliary facts: the configuration loop -/

theorem configLoop_succ (hw : XTtcPsHw) (clk : Nat) (table : List TmrCntrSetup)
    (off n LoopCount b : Nat) :
    configLoop hw clk table off (n + 1) LoopCount b =
      match (channelPass hw clk table off LoopCount).stop with
      | some o =>
        ⟨(channelPass hw clk table off LoopCount).trace,
          TimerCounterBaseAddr.getD LoopCount 0, some o⟩
      | none =>
        ⟨(channelPass hw clk table off LoopCount).trace
            ++ (configLoop hw clk table off n (LoopCount + 1)
                  (TimerCounterBaseAddr.getD LoopCount 0)).trace,
          (configLoop hw clk table off n (LoopCount + 1)
              (TimerCounterBaseAddr.getD LoopCount 0)).TmrCtrBaseAddress,
          (configLoop hw clk table off n (LoopCount + 1)
              (TimerCounterBaseAddr.getD LoopCount 0)).stop⟩ :=
  rfl

/-- A loop whose pass number k is the first to leave the function stops there, after
the accesses of the passes before it and of that pass. -/
theorem configLoop_stops (hw : XTtcPsHw) (clk : Nat) (table : List TmrCntrSetup)
    (off : Nat) (o : Outcome) :
    ∀ (k n LoopCount b : Nat), k < n →
      (∀ j, j < k → (channelPass hw clk table off (LoopCount + j)).stop = none) →
      (channelPass hw clk table off (LoopCount + k)).stop = some o →
      (configLoop hw clk table off n LoopCount b).stop = some o ∧
      (configLoop hw clk table off n LoopCount b).trace =
        passesTrace hw clk table off k LoopCount
          ++ (channelPass hw clk table off (LoopCount + k)).trace := by
  intro k
  induction k with
  | zero =>
    intro n LoopCount b hn _ hk
    obtain ⟨m, rfl⟩ : ∃ m, n = m + 1 := ⟨n - 1, by omega⟩
    rw [configLoop_succ]
    simp only [Nat.add_zero] at hk
    simp [hk, passesTrace]
  | succ k ih =>
    intro n LoopCount b hn hprev hk
    obtain ⟨m, rfl⟩ : ∃ m, n = m + 1 := ⟨n - 1, by omega⟩
    have h0 : (channelPass hw clk table off LoopCount).stop = none := by
      simpa using hprev 0 (Nat.succ_pos k)
    have hrec := ih m (LoopCount + 1) (TimerCounterBaseAddr.getD LoopCount 0)
      (by omega)
      (fun j hj => by
        have := hprev (j + 1) (by omega)
        rwa [show LoopCount + (j + 1) = LoopCount + 1 + j by omega] at this)
      (by rwa [show LoopCount + (k + 1) = LoopCount + 1 + k by omega] at hk)
    rw [configLoop_succ]
    simp only [h0]
    refine ⟨hrec.1, ?_⟩
    simp only [hrec.2, passesTrace, List.append_assoc]
    rw [show LoopCount + (k + 1) = LoopCount + 1 + k by omega]

/-- A loop none of whose passes leaves the function runs them all; the variable
TmrCtrBaseAddress is left at the base address of the last pass. -/
theorem configLoop_completes (hw : XTtcPsHw) (clk : Nat) (table : List TmrCntrSetup)
    (off : Nat) :
    ∀ (n LoopCount b : Nat),
      (∀ j, j < n → (channelPass hw clk table off (LoopCount + j)).stop = none) →
      (configLoop hw clk table off n LoopCount b).stop = none ∧
      (configLoop hw clk table off n LoopCount b).trace =
        passesTrace hw clk table off n LoopCount ∧
      (configLoop hw clk table off n LoopCount b).TmrCtrBaseAddress =
        if n = 0 then b else TimerCounterBaseAddr.getD (LoopCount + n - 1) 0 := by
  intro n
  induction n with
  | zero => intro LoopCount b _; simp [configLoop, passesTrace]
  | succ n ih =>
    intro LoopCount b hall
    have h0 : (channelPass hw clk table off LoopCount).stop = none := by
      simpa using hall 0 (Nat.succ_pos n)
    have hrec := ih (LoopCount + 1) (TimerCounterBaseAddr.getD LoopCount 0)
      (fun j hj => by
        have := hall (j + 1) (by omega)
        rwa [show LoopCount + (j + 1) = LoopCount + 1 + j by omega] at this)
    rw [configLoop_succ]
    simp only [h0]
    refine ⟨hrec.1, ?_, ?_⟩
    · simp only [hrec.2.1, passesTrace]
    · rw [hrec.2.2]
      by_cases hn : n = 0
      · subst hn; simp
      · simp only [hn, if_false, Nat.succ_ne_zero]
        rw [show LoopCount + 1 + n - 1 = LoopCount + (n + 1) - 1 by omega]

/-- When the loop ends without leaving the function, every pass went on. -/
theorem configLoop_stop_none (hw : XTtcPsHw) (clk : Nat) (table : List TmrCntrSetup)
    (off : Nat) :
    ∀ (n LoopCount b : Nat), (configLoop hw clk table off n LoopCount b).stop = none →
      ∀ j, j < n → (channelPass hw clk table off (LoopCount + j)).stop = none := by
  intro n
  induction n with
  | zero => intro _ _ _ j hj; omega
  | succ n ih =>
    intro LoopCount b h j hj
    rw [configLoop_succ] at h
    cases h0 : (channelPass hw clk table off LoopCount).stop with
    | some o => simp [h0] at h
    | none =>
      simp only [h0] at h
      cases j with
      | zero => simpa using h0
      | succ j =>
        have := ih (LoopCount + 1) _ h j (by omega)
        rwa [show LoopCount + 1 + j = LoopCount + (j + 1) by omega] at this

/-- Every access of a pass is a write to a register, other than the status register,
of the timer the pass configures. -/
theorem mem_configChannel_trace {hw : XTtcPsHw} {clk base : Nat}
    {entry : Option TmrCntrSetup} {e : Event}
    (he : e ∈ (configChannel hw clk base entry).trace) :
    ∃ r v, e = Event.write base r v ∧ r ≠ Reg.ISR := by
  unfold configChannel at he
  cases entry with
  | none => simp at he
  | some s =>
    simp only at he
    cases hiv : intervalValue clk s with
    | none =>
      simp only [hiv, List.mem_singleton] at he
      exact ⟨_, _, he, by decide⟩
    | some iv =>
      simp only [hiv] at he
      split at he
      · simp only [List.mem_singleton] at he
        exact ⟨_, _, he, by decide⟩
      · split at he
        · simp only [List.mem_cons, List.mem_singleton, List.not_mem_nil, or_false] at he
          rcases he with he | he <;> exact ⟨_, _, he, by decide⟩
        · simp only [List.mem_cons, List.mem_singleton, List.not_mem_nil, or_false] at he
          rcases he with he | he | he | he | he <;> exact ⟨_, _, he, by decide⟩

theorem mem_passesTrace {hw : XTtcPsHw} {clk : Nat} {table : List TmrCntrSetup}
    {off : Nat} {e : Event} :
    ∀ {k LoopCount : Nat}, e ∈ passesTrace hw clk table off k LoopCount →
      ∃ j, j < k ∧ e ∈ (channelPass hw clk table off (LoopCount + j)).trace := by
  intro k
  induction k with
  | zero => intro _ h; simp [passesTrace] at h
  | succ k ih =>
    intro LoopCount h
    simp only [passesTrace, List.mem_append] at h
    rcases h with h | h
    · exact ⟨0, Nat.succ_pos k, by simpa using h⟩
    · obtain ⟨j, hj, hm⟩ := ih h
      exact ⟨j + 1, by omega,
        by rwa [show LoopCount + 1 + j = LoopCount + (j + 1) by omega] at hm⟩

theorem passesTrace_mem {hw : XTtcPsHw} {clk : Nat} {table : List TmrCntrSetup}
    {off : Nat} {e : Event} :
    ∀ {k LoopCount j : Nat}, j < k →
      e ∈ (channelPass hw clk table off (LoopCount + j)).trace →
      e ∈ passesTrace hw clk table off k LoopCount := by
  intro k
  induction k with
  | zero => intro _ j hj; omega
  | succ k ih =>
    intro LoopCount j hj h
    simp only [passesTrace, List.mem_append]
    cases j with
    | zero => exact Or.inl (by simpa using h)
    | succ j =>
      refine Or.inr (ih (j := j) (by omega) ?_)
      rwa [show LoopCount + (j + 1) = LoopCount + 1 + j by omega] at h

/-- The three base addresses are pairwise different. -/
theorem baseAddr_injective {j k : Nat} (hj : j < 3) (hk : k < 3)
    (h : TimerCounterBaseAddr.getD j 0 = TimerCounterBaseAddr.getD k 0) : j = k := by
  interval_cases j <;> interval_cases k <;> simp [TimerCounterBaseAddr] at h <;> rfl

/-- A pass that returns XST_FAILURE has read its entry, has a defined interval, and
has written the clock control register only (interval out of range) or the clock
control and the interval register (match out of range). -/
theorem configChannel_stop_failure {hw : XTtcPsHw} {clk base : Nat}
    {entry : Option TmrCntrSetup}
    (h : (configChannel hw clk base entry).stop = some Outcome.XST_FAILURE) :
    ∃ s iv, entry = some s ∧ intervalValue clk s = some iv ∧
      ((outOfRange iv = true ∧
          (configChannel hw clk base entry).trace
            = [Event.write base Reg.CLK_CNTRL (clkCntrlValue hw s)]) ∨
       (outOfRange iv = false ∧ outOfRange (matchValue iv s.OutputDutyCycle) = true ∧
          (configChannel hw clk base entry).trace
            = [Event.write base Reg.CLK_CNTRL (clkCntrlValue hw s),
               Event.write base Reg.INTERVAL_VAL iv])) := by
  cases entry with
  | none => simp [configChannel] at h
  | some s =>
    cases hiv : intervalValue clk s with
    | none => simp [configChannel, hiv] at h
    | some iv =>
      refine ⟨s, iv, rfl, hiv, ?_⟩
      rw [configChannel_of_interval hw clk base s iv hiv] at h ⊢
      by_cases h1 : outOfRange iv = true
      · exact Or.inl ⟨h1, by simp [h1]⟩
      · by_cases h2 : outOfRange (matchValue iv s.OutputDutyCycle) = true
        · exact Or.inr ⟨by simpa using h1, h2, by simp [h1, h2]⟩
        · simp [h1, h2] at h

/-- A pass that goes on to the next channel has written the five registers of its
timer, with an interval and a match value in range. -/
theorem configChannel_stop_none {hw : XTtcPsHw} {clk base : Nat}
    {entry : Option TmrCntrSetup}
    (h : (configChannel hw clk base entry).stop = none) :
    ∃ s iv, entry = some s ∧ intervalValue clk s = some iv ∧
      outOfRange iv = false ∧ outOfRange (matchValue iv s.OutputDutyCycle) = false ∧
      (configChannel hw clk base entry).trace
        = [Event.write base Reg.CLK_CNTRL (clkCntrlValue hw s),
           Event.write base Reg.INTERVAL_VAL iv,
           Event.write base Reg.MATCH_0 (matchValue iv s.OutputDutyCycle),
           Event.write base Reg.CNT_CNTRL (cntCntrlValue hw),
           Event.write base Reg.IER hw.XTTCPS_IXR_INTERVAL_MASK] := by
  cases entry with
  | none => simp [configChannel] at h
  | some s =>
    cases hiv : intervalValue clk s with
    | none => simp [configChannel, hiv] at h
    | some iv =>
      refine ⟨s, iv, rfl, hiv, ?_⟩
      rw [configChannel_of_interval hw clk base s iv hiv] at h ⊢
      by_cases h1 : outOfRange iv = true
      · simp [h1] at h
      · by_cases h2 : outOfRange (matchValue iv s.OutputDutyCycle) = true
        · simp [h1, h2] at h
        · exact ⟨by simpa using h1, by simpa using h2, by simp [h1, h2]⟩

/-- A register that no access of a trace writes keeps its content. -/
theorem regsAfter_of_not_written (b : Nat) (r : Reg) :
    ∀ (t : List Event) (rf : RegFile),
      (∀ e, e ∈ t → Event.writesReg b r e = false) → regsAfter rf t b r = rf b r := by
  intro t
  induction t with
  | nil => intro rf _; rfl
  | cons e t ih =>
    intro rf h
    have he := h e (List.mem_cons_self e t)
    have ht : ∀ e1, e1 ∈ t → Event.writesReg b r e1 = false :=
      fun e1 h1 => h e1 (List.mem_cons_of_mem e h1)
    cases e with
    | read b1 r1 v1 => simpa [regsAfter] using ih rf ht
    | write b1 r1 v1 =>
      simp only [regsAfter]
      rw [ih _ ht]
      have hne : ¬ (b = b1 ∧ r = r1) := by
        intro hh
        simp [Event.writesReg, hh.1, hh.2] at he
      simp [hne]

/-- The execution in which channel k is the first to fail its range check. -/
theorem TmrCtrExample_of_firstToFail {hw : XTtcPsHw} {clk : Nat}
    {table : List TmrCntrSetup} {off k : Nat} (isr : Nat → Nat) (fuel : Nat)
    (hguard : off + 2 ≤ SETTINGS_TABLE_SIZE table)
    (hk : FirstToFail hw clk table off k) :
    TmrCtrExample hw clk table isr fuel off =
      some ⟨passesTrace hw clk table off k 0 ++ (channelPass hw clk table off k).trace,
        Outcome.XST_FAILURE⟩ := by
  obtain ⟨hlt, hprev, hfail⟩ := hk
  have hl := configLoop_stops hw clk table off Outcome.XST_FAILURE k TTC_NUM_DEVICES 0 0
    hlt (fun j hj => by simpa using hprev j hj) (by simpa using hfail)
  simp only [Nat.zero_add] at hl
  unfold TmrCtrExample
  rw [if_neg (by omega)]
  simp only [hl.1, hl.2]

/-- The passes before pass k write to the timers 0..k-1 only. -/
theorem passesTrace_writes {hw : XTtcPsHw} {clk : Nat} {table : List TmrCntrSetup}
    {off k : Nat} {e : Event} (h : e ∈ passesTrace hw clk table off k 0) :
    ∃ j, j < k ∧ ∃ r v, e = Event.write (TimerCounterBaseAddr.getD j 0) r v := by
  obtain ⟨j, hj, hm⟩ := mem_passesTrace h
  rw [Nat.zero_add] at hm
  obtain ⟨r, v, he, _⟩ := mem_configChannel_trace hm
  exact ⟨j, hj, r, v, he⟩

/-- No pass before pass k writes to a register of timer m when m is not below k. -/
theorem passesTrace_not_writesTo {hw : XTtcPsHw} {clk : Nat}
    {table : List TmrCntrSetup} {off k m : Nat} {e : Event}
    (hkm : k ≤ m) (hm : m < 3)
    (h : e ∈ passesTrace hw clk table off k 0) :
    Event.writesTo (TimerCounterBaseAddr.getD m 0) e = false := by
  obtain ⟨j, hj, r, v, rfl⟩ := passesTrace_writes h
  have hne : TimerCounterBaseAddr.getD j 0 ≠ TimerCounterBaseAddr.getD m 0 :=
    fun hh => by
      have := baseAddr_injective (by omega) hm hh
      omega
  exact decide_eq_false hne

theorem writesReg_false_of_writesTo_false {b : Nat} {e : Event} (r : Reg)
    (h : Event.writesTo b e = false) : Event.writesReg b r e = false := by
  cases e with
  | read _ _ _ => rfl
  | write b1 r1 v1 =>
    simp only [Event.writesTo, decide_eq_false_iff_not] at h
    simp [Event.writesReg, h]

/-! ## Auxiliary facts: the polling loop -/

theorem pollLoop_zero (hw : XTtcPsHw) (base : Nat) (isr : Nat → Nat) (i LoopCount : Nat) :
    pollLoop hw base isr 0 i LoopCount
      = if LoopCount < MAX_LOOP_COUNT then none else some [] :=
  rfl

theorem pollLoop_done (hw : XTtcPsHw) (base : Nat) (isr : Nat → Nat)
    (fuel i LoopCount : Nat) (h : ¬ LoopCount < MAX_LOOP_COUNT) :
    pollLoop hw base isr fuel i LoopCount = some [] := by
  cases fuel with
  | zero => rw [pollLoop_zero, if_neg h]
  | succ fuel => simp only [pollLoop, if_neg h]

theorem pollLoop_step (hw : XTtcPsHw) (base : Nat) (isr : Nat → Nat)
    (fuel i LoopCount : Nat) (h : LoopCount < MAX_LOOP_COUNT) :
    pollLoop hw base isr (fuel + 1) i LoopCount =
      (pollLoop hw base isr fuel (i + 1)
          (if intervalBitSet hw (u32 (isr i)) then LoopCount + 1 else LoopCount)).map
        (fun rest => Event.read base Reg.ISR (u32 (isr i))
          :: Event.write base Reg.ISR (u32 (isr i)) :: rest) := by
  simp only [pollLoop, if_pos h]
  cases pollLoop hw base isr fuel (i + 1)
    (if intervalBitSet hw (u32 (isr i)) then LoopCount + 1 else LoopCount) <;> rfl

/-- The polling loop has ended within fuel iterations exactly when the loop counter
and the number of interval bits among the next fuel status values reach the
bound. -/
theorem pollLoop_isSome_iff (hw : XTtcPsHw) (base : Nat) (isr : Nat → Nat) :
    ∀ (fuel i LoopCount : Nat),
      (pollLoop hw base isr fuel i LoopCount).isSome = true ↔
        MAX_LOOP_COUNT ≤ LoopCount + intervalHits hw isr i fuel := by
  intro fuel
  induction fuel with
  | zero =>
    intro i LoopCount
    rw [pollLoop_zero]
    by_cases h : LoopCount < MAX_LOOP_COUNT
    · simp only [if_pos h, intervalHits, Option.isSome_none, Bool.false_eq_true,
        false_iff]
      omega
    · simp only [if_neg h, intervalHits, Option.isSome_some, true_iff]
      omega
  | succ fuel ih =>
    intro i LoopCount
    by_cases h : LoopCount < MAX_LOOP_COUNT
    · rw [pollLoop_step hw base isr fuel i LoopCount h, Option.isSome_map', ih]
      simp only [intervalHits]
      cases intervalBitSet hw (u32 (isr i))
      · simp only [Bool.false_eq_true, if_false]
        omega
      · simp only [if_true]
        omega
    · rw [pollLoop_done hw base isr _ i LoopCount h]
      simp only [Option.isSome_some, true_iff]
      omega

/-- Every access of the polling loop is a read or a write of the status register of
the given base address. -/
theorem mem_pollLoop (hw : XTtcPsHw) (base : Nat) (isr : Nat → Nat) :
    ∀ (fuel i LoopCount : Nat) (t : List Event),
      pollLoop hw base isr fuel i LoopCount = some t →
      ∀ e, e ∈ t → ∃ v, e = Event.read base Reg.ISR v ∨ e = Event.write base Reg.ISR v := by
  intro fuel
  induction fuel with
  | zero =>
    intro i LoopCount t h e he
    rw [pollLoop_zero] at h
    by_cases hl : LoopCount < MAX_LOOP_COUNT
    · rw [if_pos hl] at h
      exact absurd h (by simp)
    · rw [if_neg hl, Option.some.injEq] at h
      subst h
      exact absurd he (List.not_mem_nil e)
  | succ fuel ih =>
    intro i LoopCount t h e he
    by_cases hl : LoopCount < MAX_LOOP_COUNT
    · rw [pollLoop_step hw base isr fuel i LoopCount hl, Option.map_eq_some'] at h
      obtain ⟨rest, hp, rfl⟩ := h
      simp only [List.mem_cons] at he
      rcases he with rfl | rfl | he
      · exact ⟨_, Or.inl rfl⟩
      · exact ⟨_, Or.inr rfl⟩
      · exact ih _ _ _ hp e he
    · rw [pollLoop_done hw base isr _ i LoopCount hl, Option.some.injEq] at h
      subst h
      exact absurd he (List.not_mem_nil e)

/-- When the polling loop ends, the interval events it has read bring the loop
counter exactly to the bound. -/
theorem pollLoop_count (hw : XTtcPsHw) (base : Nat) (isr : Nat → Nat) :
    ∀ (fuel i LoopCount : Nat) (t : List Event), LoopCount ≤ MAX_LOOP_COUNT →
      pollLoop hw base isr fuel i LoopCount = some t →
      LoopCount + t.countP (Event.intervalEvent hw base) = MAX_LOOP_COUNT := by
  intro fuel
  induction fuel with
  | zero =>
    intro i LoopCount t hle h
    rw [pollLoop_zero] at h
    by_cases hl : LoopCount < MAX_LOOP_COUNT
    · rw [if_pos hl] at h
      exact absurd h (by simp)
    · rw [if_neg hl, Option.some.injEq] at h
      subst h
      simp only [List.countP_nil]
      omega
  | succ fuel ih =>
    intro i LoopCount t hle h
    by_cases hl : LoopCount < MAX_LOOP_COUNT
    · rw [pollLoop_step hw base isr fuel i LoopCount hl, Option.map_eq_some'] at h
      obtain ⟨rest, hp, rfl⟩ := h
      have hrec := ih _ _ _ (by split <;> omega) hp
      have hw0 : Event.intervalEvent hw base (Event.write base Reg.ISR (u32 (isr i)))
          = false := rfl
      have hr0 : Event.intervalEvent hw base (Event.read base Reg.ISR (u32 (isr i)))
          = intervalBitSet hw (u32 (isr i)) := by
        simp [Event.intervalEvent]
      rw [List.countP_cons, List.countP_cons, hw0, hr0]
      cases hb : intervalBitSet hw (u32 (isr i))
      · rw [hb] at hrec
        simp only [Bool.false_eq_true, if_false] at hrec ⊢
        omega
      · rw [hb] at hrec
        simp only [if_true, Bool.false_eq_true, if_false] at hrec ⊢
        omega
    · rw [pollLoop_done hw base isr _ i LoopCount hl, Option.some.injEq] at h
      subst h
      simp only [List.countP_nil]
      omega

theorem intervalHits_of_never (hw : XTtcPsHw) (isr : Nat → Nat)
    (h : ∀ i, intervalBitSet hw (u32 (isr i)) = false) :
    ∀ (n i : Nat), intervalHits hw isr i n = 0 := by
  intro n
  induction n with
  | zero => intro i; rfl
  | succ n ih =>
    intro i
    simp [intervalHits, h i, ih (i + 1)]

theorem intervalHits_of_always (hw : XTtcPsHw) (isr : Nat → Nat)
    (h : ∀ i, intervalBitSet hw (u32 (isr i)) = true) :
    ∀ (n i : Nat), intervalHits hw isr i n = n := by
  intro n
  induction n with
  | zero => intro i; rfl
  | succ n ih =>
    intro i
    simp only [intervalHits, h i, if_true, ih (i + 1)]
    omega

/-- A read on one timer is not a read of the status register of another timer. -/
theorem readsStatus_other {j k : Nat} (hj : j < 3) (hk : k < 3) (hne : k ≠ j)
    (r : Reg) (v : Nat) :
    Event.readsStatus (TimerCounterBaseAddr.getD j 0)
      (Event.read (TimerCounterBaseAddr.getD k 0) r v) = false := by
  have hb : ¬ TimerCounterBaseAddr.getD k 0 = TimerCounterBaseAddr.getD j 0 :=
    fun hh => hne (baseAddr_injective hk hj hh)
  show (decide (TimerCounterBaseAddr.getD k 0 = TimerCounterBaseAddr.getD j 0)
    && decide (r = Reg.ISR)) = false
  rw [decide_eq_false hb, Bool.false_and]

/-! ## Auxiliary facts: the whole function -/

theorem configChannel_stop_ne_success (hw : XTtcPsHw) (clk base : Nat)
    (entry : Option TmrCntrSetup) :
    (configChannel hw clk base entry).stop ≠ some Outcome.XST_SUCCESS := by
  cases entry with
  | none => simp [configChannel]
  | some s =>
    cases hiv : intervalValue clk s with
    | none => simp [configChannel, hiv]
    | some iv =>
      rw [configChannel_of_interval hw clk base s iv hiv]
      split
      · simp
      · split <;> simp

theorem configLoop_stop_ne_success (hw : XTtcPsHw) (clk : Nat)
    (table : List TmrCntrSetup) (off : Nat) :
    ∀ (n LoopCount b : Nat),
      (configLoop hw clk table off n LoopCount b).stop ≠ some Outcome.XST_SUCCESS := by
  intro n
  induction n with
  | zero => intro _ _; simp [configLoop]
  | succ n ih =>
    intro LoopCount b
    rw [configLoop_succ]
    cases h0 : (channelPass hw clk table off LoopCount).stop with
    | none => exact ih _ _
    | some o =>
      intro hh
      have : o = Outcome.XST_SUCCESS := by simpa using hh
      subst this
      exact configChannel_stop_ne_success _ _ _ _ h0

/-- After a successful configuration the function runs the polling loop on the timer
of the last pass, timer 2, and returns XST_SUCCESS when that loop ends. -/
theorem TmrCtrExample_of_configSucceeds {hw : XTtcPsHw} {clk : Nat}
    {table : List TmrCntrSetup} {off : Nat} (isr : Nat → Nat) (fuel : Nat)
    (h : ConfigSucceeds hw clk table off) :
    TmrCtrExample hw clk table isr fuel off =
      (pollLoop hw (TimerCounterBaseAddr.getD 2 0) isr fuel 0 0).map
        (fun t => ⟨passesTrace hw clk table off TTC_NUM_DEVICES 0 ++ t,
          Outcome.XST_SUCCESS⟩) := by
  obtain ⟨hguard, hall⟩ := h
  have hl := configLoop_completes hw clk table off TTC_NUM_DEVICES 0 0
    (fun j hj => by simpa using hall j hj)
  have hb : (configLoop hw clk table off TTC_NUM_DEVICES 0 0).TmrCtrBaseAddress
      = TimerCounterBaseAddr.getD 2 0 := by
    rw [hl.2.2]; rfl
  unfold TmrCtrExample
  rw [if_neg (by omega)]
  simp only [hl.1, hl.2.1, hb]
  cases pollLoop hw (TimerCounterBaseAddr.getD 2 0) isr fuel 0 0 <;> rfl

/-- An execution that returns XST_SUCCESS has configured the three timers and then
run the polling loop on timer 2 to its end. -/
theorem TmrCtrExample_success {hw : XTtcPsHw} {clk : Nat}
    {table : List TmrCntrSetup} {off : Nat} {isr : Nat → Nat} {fuel : Nat} {run : Run}
    (h : TmrCtrExample hw clk table isr fuel off = some run)
    (hres : run.result = Outcome.XST_SUCCESS) :
    ConfigSucceeds hw clk table off ∧
    ∃ t, pollLoop hw (TimerCounterBaseAddr.getD 2 0) isr fuel 0 0 = some t ∧
      run.trace = passesTrace hw clk table off TTC_NUM_DEVICES 0 ++ t := by
  have hcs : ConfigSucceeds hw clk table off := by
    unfold TmrCtrExample at h
    by_cases hg : off + 2 > SETTINGS_TABLE_SIZE table
    · rw [if_pos hg, Option.some.injEq] at h
      subst h
      exact absurd hres (by decide)
    · rw [if_neg hg] at h
      refine ⟨by omega, ?_⟩
      cases hs : (configLoop hw clk table off TTC_NUM_DEVICES 0 0).stop with
      | none =>
        intro j hj
        simpa using configLoop_stop_none hw clk table off TTC_NUM_DEVICES 0 0 hs j hj
      | some o =>
        simp only [hs, Option.some.injEq] at h
        subst h
        simp only at hres
        subst hres
        exact absurd hs (configLoop_stop_ne_success hw clk table off _ _ _)
  refine ⟨hcs, ?_⟩
  rw [TmrCtrExample_of_configSucceeds isr fuel hcs, Option.map_eq_some'] at h
  obtain ⟨t, ht, rfl⟩ := h
  exact ⟨t, ht, rfl⟩

/-- After a successful configuration the function has returned within fuel polling
iterations exactly when the first fuel status values hold MAX_LOOP_COUNT interval
bits. -/
theorem TmrCtrExample_returns_iff {hw : XTtcPsHw} {clk : Nat}
    {table : List TmrCntrSetup} {off : Nat} (isr : Nat → Nat) (fuel : Nat)
    (h : ConfigSucceeds hw clk table off) :
    (TmrCtrExample hw clk table isr fuel off).isSome = true ↔
      MAX_LOOP_COUNT ≤ intervalHits hw isr 0 fuel := by
  rw [TmrCtrExample_of_configSucceeds isr fuel h, Option.isSome_map',
    pollLoop_isSome_iff, Nat.zero_add]

/-- The successful execution used as a concrete instance: the settings table of the
source at offset 9, a clock of 333,500,000 Hz and a status register that always
reads 1; the function returns after 255 polling iterations. -/
theorem run_offset_9_returns :
    ∃ run, TmrCtrExample xttcps 333500000 SettingsTable (fun _ => 1) 255 9 = some run ∧
      run.result = Outcome.XST_SUCCESS := by
  have h1 : intervalBitSet xttcps (u32 1) = true := by decide
  have hsome : (TmrCtrExample xttcps 333500000 SettingsTable (fun _ => 1) 255 9).isSome
      = true := by
    rw [TmrCtrExample_returns_iff _ 255 (by decide),
      intervalHits_of_always xttcps (fun _ => 1) (fun _ => h1)]
    decide
  obtain ⟨run, hrun⟩ := Option.isSome_iff_exists.mp hsome
  refine ⟨run, hrun, ?_⟩
  rw [TmrCtrExample_of_configSucceeds _ 255 (by decide), Option.map_eq_some'] at hrun
  obtain ⟨t, _, rfl⟩ := hrun
  rfl

/-! ## Auxiliary facts: bit masks -/

theorem testBit_of_and_eq_zero {x y : Nat} (h : x &&& y = 0) (i : Nat) :
    (x.testBit i && y.testBit i) = false := by
  rw [← Nat.testBit_and, h, Nat.zero_testBit]

theorem testBit_of_lt_two_pow_32 {y : Nat} (hy : y < 2 ^ 32) {i : Nat} (hi : ¬ i < 32) :
    y.testBit i = false :=
  Nat.testBit_lt_two_pow
    (lt_of_lt_of_le hy (Nat.pow_le_pow_right (by decide) (Nat.le_of_not_lt hi)))

/-- Masking the complement of x with a u32 value y disjoint from x gives y. -/
theorem not32_and_of_disjoint {x y : Nat} (hy : y < 2 ^ 32) (hd : x &&& y = 0) :
    not32 x &&& y = y := by
  apply Nat.eq_of_testBit_eq
  intro i
  have hxy := testBit_of_and_eq_zero hd i
  simp only [not32, u32, Nat.testBit_and, Nat.testBit_xor, Nat.testBit_mod_two_pow,
    Nat.testBit_two_pow_sub_one]
  by_cases hi : i < 32
  · cases hx : x.testBit i <;> cases hyb : y.testBit i <;> simp_all
  · simp [testBit_of_lt_two_pow_32 hy hi]

theorem or_and_or3_eq_zero {d e a b c : Nat}
    (hda : d &&& a = 0) (hdb : d &&& b = 0) (hdc : d &&& c = 0)
    (hea : e &&& a = 0) (heb : e &&& b = 0) (hec : e &&& c = 0) :
    (d ||| e) &&& (a ||| b ||| c) = 0 := by
  apply Nat.eq_of_testBit_eq
  intro i
  have h1 := testBit_of_and_eq_zero hda i
  have h2 := testBit_of_and_eq_zero hdb i
  have h3 := testBit_of_and_eq_zero hdc i
  have h4 := testBit_of_and_eq_zero hea i
  have h5 := testBit_of_and_eq_zero heb i
  have h6 := testBit_of_and_eq_zero hec i
  simp only [Nat.testBit_and, Nat.testBit_or, Nat.zero_testBit]
  revert h1 h2 h3 h4 h5 h6
  cases d.testBit i <;> cases e.testBit i <;> cases a.testBit i <;>
    cases b.testBit i <;> cases c.testBit i <;> decide

theorem or3_and_self (a b c : Nat) :
    (a ||| b ||| c) &&& a = a ∧ (a ||| b ||| c) &&& b = b ∧ (a ||| b ||| c) &&& c = c := by
  refine ⟨?_, ?_, ?_⟩ <;>
  · apply Nat.eq_of_testBit_eq
    intro i
    simp only [Nat.testBit_and, Nat.testBit_or]
    cases a.testBit i <;> cases b.testBit i <;> cases c.testBit i <;> rfl

theorem or3_and_of_disjoint {d a b c : Nat}
    (hda : d &&& a = 0) (hdb : d &&& b = 0) (hdc : d &&& c = 0) :
    (a ||| b ||| c) &&& d = 0 := by
  apply Nat.eq_of_testBit_eq
  intro i
  have h1 := testBit_of_and_eq_zero hda i
  have h2 := testBit_of_and_eq_zero hdb i
  have h3 := testBit_of_and_eq_zero hdc i
  simp only [Nat.testBit_and, Nat.testBit_or, Nat.zero_testBit]
  revert h1 h2 h3
  cases d.testBit i <;> cases a.testBit i <;> cases b.testBit i <;>
    cases c.testBit i <;> decide

/-- Every write of a pass to the counter control register carries the value of
cntCntrlValue. -/
theorem cntCntrl_write_value {hw : XTtcPsHw} {clk base : Nat}
    {entry : Option TmrCntrSetup} {b v : Nat}
    (h : Event.write b Reg.CNT_CNTRL v ∈ (configChannel hw clk base entry).trace) :
    v = cntCntrlValue hw := by
  cases entry with
  | none => simp [configChannel] at h
  | some s =>
    cases hiv : intervalValue clk s with
    | none => simp [configChannel, hiv] at h
    | some iv =>
      rw [configChannel_of_interval hw clk base s iv hiv] at h
      split at h
      · simp at h
      · split at h
        · simp at h
        · simp only [List.mem_cons, Event.write.injEq, List.mem_singleton,
            List.not_mem_nil, or_false] at h
          rcases h with h | h | h | h | h
          · exact absurd h.2.1 (by decide)
          · exact absurd h.2.1 (by decide)
          · exact absurd h.2.1 (by decide)
          · exact h.2.2
          · exact absurd h.2.1 (by decide)

/-- An execution that returns XST_SUCCESS has read exactly MAX_LOOP_COUNT status
values of timer 2 with the interval bit set. -/
theorem TmrCtrExample_success_count {hw : XTtcPsHw} {clk : Nat}
    {table : List TmrCntrSetup} {off : Nat} {isr : Nat → Nat} {fuel : Nat} {run : Run}
    (h : TmrCtrExample hw clk table isr fuel off = some run)
    (hres : run.result = Outcome.XST_SUCCESS) :
    run.trace.countP (Event.intervalEvent hw (TimerCounterBaseAddr.getD 2 0))
      = MAX_LOOP_COUNT := by
  obtain ⟨_, t, ht, htrace⟩ := TmrCtrExample_success h hres
  rw [htrace, List.countP_append]
  have h0 : (passesTrace hw clk table off TTC_NUM_DEVICES 0).countP
      (Event.intervalEvent hw (TimerCounterBaseAddr.getD 2 0)) = 0 := by
    rw [List.countP_eq_zero]
    intro e he
    obtain ⟨j, _, r, v, rfl⟩ := passesTrace_writes he
    simp [Event.intervalEvent]
  have h1 := pollLoop_count hw _ isr fuel 0 0 t (Nat.zero_le _) ht
  omega

/-- The clock control value depends on the prescaler value of the entry only. -/
theorem clkCntrlValue_congr (hw : XTtcPsHw) (hz d p : Nat) :
    clkCntrlValue hw ⟨hz, d, p⟩ = clkCntrlValue hw ⟨0, 0, p⟩ :=
  rfl

/-- The clock control value for each of the prescaler values 0..15. -/
theorem clkCntrlValue_below_16 :
    ∀ p : Fin 16,
      clkCntrlValue xttcps ⟨0, 0, p.val⟩ = ((p.val <<< 1) &&& 0x1E) ||| 0x01 ∧
      clkCntrlValue xttcps ⟨0, 0, p.val⟩ = 2 * p.val + 1 ∧
      (clkCntrlValue xttcps ⟨0, 0, p.val⟩ >>> 1) &&& 0xF = p.val ∧
      clkCntrlValue xttcps ⟨0, 0, p.val⟩ &&& 0x01 = 0x01 ∧
      PrescalerSettings[p.val]? = some (2 ^ (p.val + 1)) := by
  decide

/-! ## The claims -/

/-- C1, counterexample: with prescaler index 15 (divisor 65536) and OutputHz = 65537
the product 65536 * 65537 exceeds the u32 range and wraps to 65536, so for a clock
of 333,500,000 Hz the code computes the interval 5088 and not
floor(333500000 / (65536 * 65537)) = 0. -/
theorem C1_counterexample_product_wraps :
    PrescalerSettings[15]? = some 65536 ∧
    intervalValue 333500000 ⟨65537, 50, 15⟩ = some 5088 ∧
    ¬ (intervalValue 333500000 ⟨65537, 50, 15⟩
        = some (333500000 / (65536 * 65537))) := by
  decide

/-- C1, amended: for every u32 peripheral clock value, every positive OutputHz and
every prescaler index p in 0..16 with divisor D = PrescalerSettings[p] such that
D * OutputHz is below 2^32, the IntervalValue computed by TmrCtrExample is
floor(clock / (D * OutputHz)). -/
theorem C1_interval_is_floor_when_product_fits
    (PCLK_FREQ_HZ OutputHz duty p D : Nat)
    (hclk : PCLK_FREQ_HZ < 2 ^ 32) (hD : PrescalerSettings[p]? = some D)
    (hHz : 0 < OutputHz) (hfit : D * OutputHz < 2 ^ 32) :
    intervalValue PCLK_FREQ_HZ ⟨OutputHz, duty, p⟩
      = some (PCLK_FREQ_HZ / (D * OutputHz)) :=
  intervalValue_of_fit hclk hD hHz hfit

/-- C1, witness: clock 333,500,000 Hz, prescaler index 1 (divisor 4) and
OutputHz = 100,000 give the interval 833. -/
theorem C1_witness_833 :
    PrescalerSettings[1]? = some 4 ∧
    intervalValue 333500000 ⟨100000, 50, 1⟩ = some 833 :=
  ⟨by decide,
   C1_interval_is_floor_when_product_fits 333500000 100000 50 1 4
     (by decide) (by decide) (by decide) (by decide)⟩

/-- C2: for every IntervalValue up to 65535 (in particular every accepted one, 4 to
65535) and every duty cycle d in 0..100, the MatchValue computed by TmrCtrExample
is floor(IntervalValue * d / 100), the u32 product not wrapping, so that
MatchValue * 100 <= IntervalValue * d < (MatchValue + 1) * 100. -/
theorem C2_match_is_truncated_percentage (IntervalValue d : Nat)
    (hhi : IntervalValue ≤ 65535) (hd : d ≤ 100) :
    u32 (IntervalValue * d) = IntervalValue * d ∧
    matchValue IntervalValue d = IntervalValue * d / 100 ∧
    matchValue IntervalValue d * 100 ≤ IntervalValue * d ∧
    IntervalValue * d < (matchValue IntervalValue d + 1) * 100 := by
  have hprod : IntervalValue * d ≤ 65535 * 100 := Nat.mul_le_mul hhi hd
  have hlt : IntervalValue * d < 2 ^ 32 := lt_of_le_of_lt hprod (by norm_num)
  rw [matchValue_exact hhi hd]
  refine ⟨u32_of_lt hlt, rfl, ?_, ?_⟩
  · exact Nat.div_mul_le_self _ _
  · have := Nat.lt_succ_self (IntervalValue * d / 100)
    have h2 := Nat.div_add_mod (IntervalValue * d) 100
    have h3 := Nat.mod_lt (IntervalValue * d) (by norm_num : 100 > 0)
    omega

/-- C2, witness: interval 833 at a duty cycle of 50 percent gives the match value
416, and 416 * 100 <= 833 * 50 < 417 * 100. -/
theorem C2_witness_416 :
    matchValue 833 50 = 416 ∧ 416 * 100 ≤ 833 * 50 ∧ 833 * 50 < (416 + 1) * 100 := by
  have h := C2_match_is_truncated_percentage 833 50 (by decide) (by decide)
  have hm : matchValue 833 50 = 416 := by decide
  rw [hm] at h
  exact ⟨hm, h.2.2.1, h.2.2.2⟩

/-- C3: for a channel whose settings-table entry is read and whose interval
computation is defined, the pass of the configuration loop returns XST_FAILURE
exactly when the computed IntervalValue or the computed MatchValue is outside
4..65535; otherwise it goes on and programs the five registers of the channel. -/
theorem C3_channel_fails_iff_out_of_range (hw : XTtcPsHw)
    (PCLK_FREQ_HZ base : Nat) (CurrSetup : TmrCntrSetup) (IntervalValue : Nat)
    (hiv : intervalValue PCLK_FREQ_HZ CurrSetup = some IntervalValue) :
    ((configChannel hw PCLK_FREQ_HZ base (some CurrSetup)).stop
        = some Outcome.XST_FAILURE ↔
      (IntervalValue < 4 ∨ 65535 < IntervalValue ∨
        matchValue IntervalValue CurrSetup.OutputDutyCycle < 4 ∨
        65535 < matchValue IntervalValue CurrSetup.OutputDutyCycle)) ∧
    (¬ (IntervalValue < 4 ∨ 65535 < IntervalValue ∨
        matchValue IntervalValue CurrSetup.OutputDutyCycle < 4 ∨
        65535 < matchValue IntervalValue CurrSetup.OutputDutyCycle) →
      configChannel hw PCLK_FREQ_HZ base (some CurrSetup) =
        ⟨[Event.write base Reg.CLK_CNTRL (clkCntrlValue hw CurrSetup),
          Event.write base Reg.INTERVAL_VAL IntervalValue,
          Event.write base Reg.MATCH_0
            (matchValue IntervalValue CurrSetup.OutputDutyCycle),
          Event.write base Reg.CNT_CNTRL (cntCntrlValue hw),
          Event.write base Reg.IER hw.XTTCPS_IXR_INTERVAL_MASK], none⟩) := by
  rw [configChannel_of_interval hw PCLK_FREQ_HZ base CurrSetup IntervalValue hiv]
  by_cases h1 : outOfRange IntervalValue = true
  · have h1p := (outOfRange_iff _).mp h1
    simp only [h1, if_true]
    refine ⟨⟨fun _ => by omega, fun _ => trivial⟩, fun hn => absurd ?_ hn⟩
    omega
  · by_cases h2 : outOfRange (matchValue IntervalValue CurrSetup.OutputDutyCycle) = true
    · have h2p := (outOfRange_iff _).mp h2
      simp only [h1, h2, if_true]
      refine ⟨⟨fun _ => by omega, fun _ => by simp⟩, fun hn => absurd ?_ hn⟩
      omega
    · have h1p := (outOfRange_eq_false_iff _).mp (by simpa using h1)
      have h2p := (outOfRange_eq_false_iff _).mp (by simpa using h2)
      simp only [h1, h2]
      refine ⟨⟨fun h => by simp at h, fun h => by omega⟩, fun _ => by simp⟩

/-- C3, witness: clock 333,500,000 Hz, prescaler index 6 (divisor 128) and 10 Hz give
the interval 260546, and the channel is rejected with XST_FAILURE. -/
theorem C3_witness_rejects_260546 :
    intervalValue 333500000 ⟨10, 50, 6⟩ = some 260546 ∧
    (configChannel xttcps 333500000 0xF8001000 (some ⟨10, 50, 6⟩)).stop
      = some Outcome.XST_FAILURE :=
  ⟨by decide,
   (C3_channel_fails_iff_out_of_range xttcps 333500000 0xF8001000 ⟨10, 50, 6⟩ 260546
      (by decide)).1.mpr (Or.inr (Or.inl (by decide)))⟩

/-- C4, counterexample: with prescaler index 15 (divisor 65536) and the positive
32-bit OutputHz = 65536 the u32 product 65536 * 65536 is 0, so the interval
computation divides by zero: the pass ends in undefined behaviour and not in the
XST_FAILURE return. -/
theorem C4_counterexample_zero_divisor :
    PrescalerSettings[15]? = some 65536 ∧ 0 < 65536 ∧ 65536 < 2 ^ 32 ∧
    intervalDivisor ⟨65536, 50, 15⟩ = some 0 ∧
    intervalValue 333500000 ⟨65536, 50, 15⟩ = none ∧
    (configChannel xttcps 333500000 0xF8001000 (some ⟨65536, 50, 15⟩)).stop
      = some Outcome.undefined := by
  decide

/-- C4, amended: for every positive OutputHz and every prescaler index p in 0..16
with divisor D = PrescalerSettings[p] such that D * OutputHz is below 2^32, the u32
divisor of the interval computation is D * OutputHz and is not zero; the pass never
ends in undefined behaviour, and it ends in the XST_FAILURE return whenever the
interval or the match value is out of range. -/
theorem C4_no_division_by_zero_when_product_fits (hw : XTtcPsHw)
    (PCLK_FREQ_HZ base OutputHz duty p D : Nat)
    (hD : PrescalerSettings[p]? = some D) (hHz : 0 < OutputHz)
    (hfit : D * OutputHz < 2 ^ 32) :
    intervalDivisor ⟨OutputHz, duty, p⟩ = some (D * OutputHz) ∧
    D * OutputHz ≠ 0 ∧
    (∃ iv, intervalValue PCLK_FREQ_HZ ⟨OutputHz, duty, p⟩ = some iv ∧
      ((outOfRange iv = true ∨ outOfRange (matchValue iv duty) = true) →
        (configChannel hw PCLK_FREQ_HZ base (some ⟨OutputHz, duty, p⟩)).stop
          = some Outcome.XST_FAILURE)) ∧
    (configChannel hw PCLK_FREQ_HZ base (some ⟨OutputHz, duty, p⟩)).stop
      ≠ some Outcome.undefined := by
  have hdiv := @intervalDivisor_of_fit OutputHz duty p D hD hfit
  have hne : D * OutputHz ≠ 0 :=
    Nat.pos_iff_ne_zero.mp (Nat.mul_pos (prescalerSettings_pos hD) hHz)
  have hiv : intervalValue PCLK_FREQ_HZ ⟨OutputHz, duty, p⟩
      = some (u32 (PCLK_FREQ_HZ / (D * OutputHz))) := by
    simp [intervalValue, hdiv, hne]
  refine ⟨hdiv, hne, ⟨_, hiv, ?_⟩, ?_⟩
  · intro h
    rw [configChannel_of_interval hw PCLK_FREQ_HZ base _ _ hiv]
    by_cases h1 : outOfRange (u32 (PCLK_FREQ_HZ / (D * OutputHz))) = true
    · simp [h1]
    · have h2 := h.resolve_left h1
      simp [h1, h2]
  · rw [configChannel_of_interval hw PCLK_FREQ_HZ base _ _ hiv]
    split
    · simp
    · split <;> simp

/-- C4, witness: prescaler index 6 (divisor 128) and 10 Hz give the divisor 1280, and
the out-of-range interval 260546 ends in the XST_FAILURE return. -/
theorem C4_witness_1280 :
    intervalDivisor ⟨10, 50, 6⟩ = some 1280 ∧
    (configChannel xttcps 333500000 0xF8001000 (some ⟨10, 50, 6⟩)).stop
      ≠ some Outcome.undefined :=
  have h := C4_no_division_by_zero_when_product_fits xttcps 333500000 0xF8001000
    10 50 6 128 (by decide) (by decide) (by decide)
  ⟨h.1, h.2.2.2⟩

/-- C5, counterexample: a failing channel has been written to.  With the settings
table of the source, a clock of 333,500,000 Hz and offset 0, channel 0 fails its
interval check after its clock control register was written: starting from
registers that hold 0, it holds 13 when the call returns XST_FAILURE.  With a first
entry of 100 kHz at a duty cycle of 0 percent, channel 0 fails its match check after
its clock control and interval registers were written (3 and 833). -/
theorem C5_counterexample_failing_channel_written :
    (FirstToFail xttcps 333500000 SettingsTable 0 0 ∧
      TmrCtrExample xttcps 333500000 SettingsTable (fun _ => 0) 0 0
        = some ⟨[Event.write 0xF8001000 Reg.CLK_CNTRL 13], Outcome.XST_FAILURE⟩ ∧
      regsAfter (fun _ _ => 0) [Event.write 0xF8001000 Reg.CLK_CNTRL 13]
        0xF8001000 Reg.CLK_CNTRL = 13) ∧
    (FirstToFail xttcps 333500000
        [⟨100000, 0, 1⟩, ⟨100000, 50, 1⟩, ⟨100000, 50, 1⟩] 0 0 ∧
      TmrCtrExample xttcps 333500000
          [⟨100000, 0, 1⟩, ⟨100000, 50, 1⟩, ⟨100000, 50, 1⟩] (fun _ => 0) 0 0
        = some ⟨[Event.write 0xF8001000 Reg.CLK_CNTRL 3,
                 Event.write 0xF8001000 Reg.INTERVAL_VAL 833], Outcome.XST_FAILURE⟩ ∧
      regsAfter (fun _ _ => 0)
          [Event.write 0xF8001000 Reg.CLK_CNTRL 3,
           Event.write 0xF8001000 Reg.INTERVAL_VAL 833]
        0xF8001000 Reg.INTERVAL_VAL = 833) := by
  decide

/-- C5, amended: if channel k is the first whose range check fails, the call returns
XST_FAILURE and has written neither the match, nor the counter control, nor the
interrupt enable register of that channel, which hold the values they had before the
call; when it is the interval check that fails, the same holds of the interval
register. -/
theorem C5_failing_channel_registers_kept (hw : XTtcPsHw) (PCLK_FREQ_HZ : Nat)
    (table : List TmrCntrSetup) (isr : Nat → Nat) (fuel SettingsTableOffset k : Nat)
    (hguard : SettingsTableOffset + 2 ≤ SETTINGS_TABLE_SIZE table)
    (hk : FirstToFail hw PCLK_FREQ_HZ table SettingsTableOffset k) :
    ∃ run, TmrCtrExample hw PCLK_FREQ_HZ table isr fuel SettingsTableOffset = some run ∧
      run.result = Outcome.XST_FAILURE ∧
      (∀ r, r = Reg.MATCH_0 ∨ r = Reg.CNT_CNTRL ∨ r = Reg.IER →
        (∀ e, e ∈ run.trace →
          Event.writesReg (TimerCounterBaseAddr.getD k 0) r e = false) ∧
        (∀ rf : RegFile, regsAfter rf run.trace (TimerCounterBaseAddr.getD k 0) r
          = rf (TimerCounterBaseAddr.getD k 0) r)) ∧
      (∀ s iv, table[SettingsTableOffset + k]? = some s →
        intervalValue PCLK_FREQ_HZ s = some iv → outOfRange iv = true →
        (∀ e, e ∈ run.trace →
          Event.writesReg (TimerCounterBaseAddr.getD k 0) Reg.INTERVAL_VAL e = false) ∧
        (∀ rf : RegFile,
          regsAfter rf run.trace (TimerCounterBaseAddr.getD k 0) Reg.INTERVAL_VAL
            = rf (TimerCounterBaseAddr.getD k 0) Reg.INTERVAL_VAL)) := by
  refine ⟨_, TmrCtrExample_of_firstToFail isr fuel hguard hk, rfl, ?_, ?_⟩
  · intro r hr
    have key : ∀ e, e ∈ passesTrace hw PCLK_FREQ_HZ table SettingsTableOffset k 0
        ++ (channelPass hw PCLK_FREQ_HZ table SettingsTableOffset k).trace →
        Event.writesReg (TimerCounterBaseAddr.getD k 0) r e = false := by
      intro e he
      rcases List.mem_append.mp he with h | h
      · exact writesReg_false_of_writesTo_false r
          (passesTrace_not_writesTo (Nat.le_refl k) hk.1 h)
      · obtain ⟨s, iv, _, _, hcase⟩ := configChannel_stop_failure hk.2.2
        unfold channelPass at h
        rcases hcase with ⟨_, ht⟩ | ⟨_, _, ht⟩
        · rw [ht] at h
          simp only [List.mem_singleton] at h
          subst h
          rcases hr with rfl | rfl | rfl <;> simp [Event.writesReg]
        · rw [ht] at h
          simp only [List.mem_cons, List.mem_singleton, List.not_mem_nil, or_false] at h
          rcases h with rfl | rfl <;> rcases hr with rfl | rfl | rfl <;>
            simp [Event.writesReg]
    exact ⟨key, fun rf => regsAfter_of_not_written _ _ _ rf key⟩
  · intro s iv hs hiv hout
    have key : ∀ e, e ∈ passesTrace hw PCLK_FREQ_HZ table SettingsTableOffset k 0
        ++ (channelPass hw PCLK_FREQ_HZ table SettingsTableOffset k).trace →
        Event.writesReg (TimerCounterBaseAddr.getD k 0) Reg.INTERVAL_VAL e = false := by
      intro e he
      rcases List.mem_append.mp he with h | h
      · exact writesReg_false_of_writesTo_false _
          (passesTrace_not_writesTo (Nat.le_refl k) hk.1 h)
      · unfold channelPass at h
        rw [hs, configChannel_of_interval hw PCLK_FREQ_HZ _ s iv hiv] at h
        simp only [hout, if_true, List.mem_singleton] at h
        subst h
        simp [Event.writesReg]
    exact ⟨key, fun rf => regsAfter_of_not_written _ _ _ rf key⟩

/-- C5, witness: with the settings table of the source, a clock of 333,500,000 Hz
and offset 0, channel 0 is the first to fail and the call returns XST_FAILURE. -/
theorem C5_witness_offset_0 :
    ∃ run, TmrCtrExample xttcps 333500000 SettingsTable (fun _ => 0) 0 0 = some run ∧
      run.result = Outcome.XST_FAILURE := by
  obtain ⟨run, h1, h2, _⟩ := C5_failing_channel_registers_kept xttcps 333500000
    SettingsTable (fun _ => 0) 0 0 0 (by decide) (by decide)
  exact ⟨run, h1, h2⟩

/-- C6, counterexample: the configuration is not all-or-nothing.  With the settings
triple 100 kHz / 50 percent / prescaler 1, 10 Hz / 50 percent / prescaler 6,
100 kHz / 50 percent / prescaler 1 and a clock of 333,500,000 Hz, channel 1 is the
first to fail; the call returns XST_FAILURE after the five registers of channel 0
were written. -/
theorem C6_counterexample_earlier_channel_committed :
    FirstToFail xttcps 333500000
      [⟨100000, 50, 1⟩, ⟨10, 50, 6⟩, ⟨100000, 50, 1⟩] 0 1 ∧
    TmrCtrExample xttcps 333500000
        [⟨100000, 50, 1⟩, ⟨10, 50, 6⟩, ⟨100000, 50, 1⟩] (fun _ => 0) 0 0
      = some ⟨[Event.write 0xF8001000 Reg.CLK_CNTRL 3,
               Event.write 0xF8001000 Reg.INTERVAL_VAL 833,
               Event.write 0xF8001000 Reg.MATCH_0 416,
               Event.write 0xF8001000 Reg.CNT_CNTRL 26,
               Event.write 0xF8001000 Reg.IER 1,
               Event.write 0xF8001004 Reg.CLK_CNTRL 13], Outcome.XST_FAILURE⟩ ∧
    Event.writesTo (TimerCounterBaseAddr.getD 0 0)
      (Event.write 0xF8001000 Reg.CLK_CNTRL 3) = true := by
  decide

/-- C6, amended: if channel k is the first whose range check fails, the call returns
XST_FAILURE, the channels before k have been programmed (each of their five
registers has been written) and the recorded accesses contain no write to any
channel after k. -/
theorem C6_failure_stops_at_failing_channel (hw : XTtcPsHw) (PCLK_FREQ_HZ : Nat)
    (table : List TmrCntrSetup) (isr : Nat → Nat) (fuel SettingsTableOffset k : Nat)
    (hguard : SettingsTableOffset + 2 ≤ SETTINGS_TABLE_SIZE table)
    (hk : FirstToFail hw PCLK_FREQ_HZ table SettingsTableOffset k) :
    ∃ run, TmrCtrExample hw PCLK_FREQ_HZ table isr fuel SettingsTableOffset = some run ∧
      run.result = Outcome.XST_FAILURE ∧
      (∀ j, j < k → ∀ r, r ≠ Reg.ISR →
        ∃ e, e ∈ run.trace ∧
          Event.writesReg (TimerCounterBaseAddr.getD j 0) r e = true) ∧
      (∀ j, k < j → j < TTC_NUM_DEVICES → ∀ e, e ∈ run.trace →
        Event.writesTo (TimerCounterBaseAddr.getD j 0) e = false) := by
  refine ⟨_, TmrCtrExample_of_firstToFail isr fuel hguard hk, rfl, ?_, ?_⟩
  · intro j hj r hr
    obtain ⟨s, iv, _, _, _, _, ht⟩ := configChannel_stop_none (hk.2.1 j hj)
    have hin : ∀ e, e ∈ (channelPass hw PCLK_FREQ_HZ table SettingsTableOffset j).trace →
        e ∈ passesTrace hw PCLK_FREQ_HZ table SettingsTableOffset k 0
          ++ (channelPass hw PCLK_FREQ_HZ table SettingsTableOffset k).trace :=
      fun e he => List.mem_append.mpr
        (Or.inl (passesTrace_mem hj (by rwa [Nat.zero_add])))
    unfold channelPass at hin
    rw [ht] at hin
    generalize TimerCounterBaseAddr.getD j 0 = b at hin ⊢
    cases r with
    | ISR => exact absurd rfl hr
    | CLK_CNTRL =>
      exact ⟨Event.write b Reg.CLK_CNTRL (clkCntrlValue hw s), hin _ (by simp),
        by simp [Event.writesReg]⟩
    | INTERVAL_VAL =>
      exact ⟨Event.write b Reg.INTERVAL_VAL iv, hin _ (by simp), by simp [Event.writesReg]⟩
    | MATCH_0 =>
      exact ⟨Event.write b Reg.MATCH_0 (matchValue iv s.OutputDutyCycle),
        hin _ (by simp), by simp [Event.writesReg]⟩
    | CNT_CNTRL =>
      exact ⟨Event.write b Reg.CNT_CNTRL (cntCntrlValue hw), hin _ (by simp),
        by simp [Event.writesReg]⟩
    | IER =>
      exact ⟨Event.write b Reg.IER hw.XTTCPS_IXR_INTERVAL_MASK, hin _ (by simp),
        by simp [Event.writesReg]⟩
  · intro j hkj hj e he
    rcases List.mem_append.mp he with h | h
    · exact passesTrace_not_writesTo (Nat.le_of_lt hkj) hj h
    · obtain ⟨r, v, rfl, _⟩ := mem_configChannel_trace h
      have hne : TimerCounterBaseAddr.getD k 0 ≠ TimerCounterBaseAddr.getD j 0 :=
        fun hh => by
          have := baseAddr_injective hk.1 hj hh
          omega
      exact decide_eq_false hne

/-- C6, witness: with the settings table of the source, a clock of 10 MHz and offset
12, channel 2 is the first to fail and the call returns XST_FAILURE. -/
theorem C6_witness_offset_12 :
    ∃ run, TmrCtrExample xttcps 10000000 SettingsTable (fun _ => 0) 0 12 = some run ∧
      run.result = Outcome.XST_FAILURE ∧
      ∃ e, e ∈ run.trace ∧ Event.writesReg 0xF8001004 Reg.IER e = true := by
  obtain ⟨run, h1, h2, h3, _⟩ := C6_failure_stops_at_failing_channel xttcps 10000000
    SettingsTable (fun _ => 0) 0 12 2 (by decide) (by decide)
  exact ⟨run, h1, h2, h3 1 (by decide) Reg.IER (by decide)⟩

/-- C7, counterexample: the polling loop is not bounded.  With the settings table of
the source, a clock of 333,500,000 Hz and offset 9 the configuration succeeds, and
when the status register always reads 0 there is no number of polling iterations
after which the function has returned, be it with a failure. -/
theorem C7_counterexample_unbounded_wait :
    ConfigSucceeds xttcps 333500000 SettingsTable 9 ∧
    ¬ ∃ fuel, (TmrCtrExample xttcps 333500000 SettingsTable (fun _ => 0) fuel 9).isSome
        = true := by
  refine ⟨by decide, ?_⟩
  rintro ⟨fuel, h⟩
  have h0 : intervalBitSet xttcps (u32 0) = false := by decide
  rw [TmrCtrExample_returns_iff _ fuel (by decide),
    intervalHits_of_never xttcps (fun _ => 0) (fun _ => h0)] at h
  exact absurd h (by decide)

/-- C7, amended: after a successful configuration the polling loop of TmrCtrExample
ends exactly when MAX_LOOP_COUNT status values with the interval bit set have been
read; the function then returns XST_SUCCESS, and it has no other way to return.
When the interval bit is never set, the function is still polling after any number
of iterations and reports nothing. -/
theorem C7_polling_ends_only_on_interval_events (hw : XTtcPsHw) (PCLK_FREQ_HZ : Nat)
    (table : List TmrCntrSetup) (isr : Nat → Nat) (SettingsTableOffset : Nat)
    (hcfg : ConfigSucceeds hw PCLK_FREQ_HZ table SettingsTableOffset) :
    (∀ fuel,
      (TmrCtrExample hw PCLK_FREQ_HZ table isr fuel SettingsTableOffset).isSome = true ↔
        MAX_LOOP_COUNT ≤ intervalHits hw isr 0 fuel) ∧
    (∀ fuel run,
      TmrCtrExample hw PCLK_FREQ_HZ table isr fuel SettingsTableOffset = some run →
        run.result = Outcome.XST_SUCCESS) ∧
    ((∀ i, intervalBitSet hw (u32 (isr i)) = false) →
      ∀ fuel, TmrCtrExample hw PCLK_FREQ_HZ table isr fuel SettingsTableOffset = none) := by
  refine ⟨fun fuel => TmrCtrExample_returns_iff isr fuel hcfg, ?_, ?_⟩
  · intro fuel run h
    rw [TmrCtrExample_of_configSucceeds isr fuel hcfg, Option.map_eq_some'] at h
    obtain ⟨t, _, rfl⟩ := h
    rfl
  · intro hnever fuel
    have h := TmrCtrExample_returns_iff isr fuel hcfg
    rw [intervalHits_of_never hw isr hnever] at h
    cases hr : TmrCtrExample hw PCLK_FREQ_HZ table isr fuel SettingsTableOffset with
    | none => rfl
    | some run =>
      rw [hr] at h
      exact absurd (h.mp rfl) (by decide)

/-- C7, witness: with the settings table of the source, a clock of 333,500,000 Hz,
offset 9 and a status register that always reads 0, the function is still polling
after 1000 iterations. -/
theorem C7_witness_still_polling :
    TmrCtrExample xttcps 333500000 SettingsTable (fun _ => 0) 1000 9 = none :=
  (C7_polling_ends_only_on_interval_events xttcps 333500000 SettingsTable (fun _ => 0) 9
    (by decide)).2.2 (fun _ => (by decide : intervalBitSet xttcps (u32 0) = false)) 1000

/-- C8, counterexample: with the settings table of the source, a clock of
333,500,000 Hz, offset 9 and a status register that always reads 1, the function
returns XST_SUCCESS after 255 polling iterations without any read of the status
register of channel 0. -/
theorem C8_counterexample_channel_0_never_read :
    ∃ run, TmrCtrExample xttcps 333500000 SettingsTable (fun _ => 1) 255 9 = some run ∧
      run.result = Outcome.XST_SUCCESS ∧
      ¬ ∃ e, e ∈ run.trace ∧
        Event.readsStatus (TimerCounterBaseAddr.getD 0 0) e = true := by
  obtain ⟨run, hrun, hres⟩ := run_offset_9_returns
  refine ⟨run, hrun, hres, ?_⟩
  rintro ⟨e, he, hread⟩
  obtain ⟨_, t, ht, htrace⟩ := TmrCtrExample_success hrun hres
  rw [htrace] at he
  rcases List.mem_append.mp he with h | h
  · obtain ⟨j, _, r, v, rfl⟩ := passesTrace_writes h
    exact absurd hread (by simp [Event.readsStatus])
  · obtain ⟨v, rfl | rfl⟩ := mem_pollLoop _ _ _ _ _ _ _ ht e h
    · rw [readsStatus_other (by decide) (by decide) (by decide)] at hread
      exact absurd hread (by decide)
    · exact absurd hread (by simp [Event.readsStatus])

/-- C8, amended: in the run phase only the status register of the channel configured
last, channel 2, is read.  Whenever the function returns XST_SUCCESS, every read in
the trace is a read of the status register of channel 2, the status registers of
channels 0 and 1 have not been read, and exactly MAX_LOOP_COUNT (255) reads of
channel 2 returned a value with the interval bit set. -/
theorem C8_only_last_channel_polled (hw : XTtcPsHw) (PCLK_FREQ_HZ : Nat)
    (table : List TmrCntrSetup) (isr : Nat → Nat) (fuel SettingsTableOffset : Nat)
    (run : Run)
    (hrun : TmrCtrExample hw PCLK_FREQ_HZ table isr fuel SettingsTableOffset = some run)
    (hres : run.result = Outcome.XST_SUCCESS) :
    (∀ b r v, Event.read b r v ∈ run.trace →
      b = TimerCounterBaseAddr.getD 2 0 ∧ r = Reg.ISR) ∧
    (∀ e, e ∈ run.trace →
      Event.readsStatus (TimerCounterBaseAddr.getD 0 0) e = false ∧
      Event.readsStatus (TimerCounterBaseAddr.getD 1 0) e = false) ∧
    run.trace.countP (Event.intervalEvent hw (TimerCounterBaseAddr.getD 2 0))
      = MAX_LOOP_COUNT := by
  obtain ⟨_, t, ht, htrace⟩ := TmrCtrExample_success hrun hres
  have hreads : ∀ b r v, Event.read b r v ∈ run.trace →
      b = TimerCounterBaseAddr.getD 2 0 ∧ r = Reg.ISR := by
    intro b r v he
    rw [htrace] at he
    rcases List.mem_append.mp he with h | h
    · obtain ⟨j, _, r1, v1, hh⟩ := passesTrace_writes h
      exact absurd hh (by simp)
    · obtain ⟨v1, hh | hh⟩ := mem_pollLoop _ _ _ _ _ _ _ ht _ h
      · simp only [Event.read.injEq] at hh
        exact ⟨hh.1, hh.2.1⟩
      · exact absurd hh (by simp)
  refine ⟨hreads, ?_, ?_⟩
  · intro e he
    cases e with
    | write b r v => exact ⟨rfl, rfl⟩
    | read b r v =>
      obtain ⟨hb, _⟩ := hreads b r v he
      subst hb
      exact ⟨readsStatus_other (by decide) (by decide) (by decide) r v,
        readsStatus_other (by decide) (by decide) (by decide) r v⟩
  · rw [htrace, List.countP_append]
    have h0 : (passesTrace hw PCLK_FREQ_HZ table SettingsTableOffset TTC_NUM_DEVICES 0).countP
        (Event.intervalEvent hw (TimerCounterBaseAddr.getD 2 0)) = 0 := by
      rw [List.countP_eq_zero]
      intro e he
      obtain ⟨j, _, r, v, rfl⟩ := passesTrace_writes he
      simp [Event.intervalEvent]
    have h1 := pollLoop_count hw _ isr fuel 0 0 t (Nat.zero_le _) ht
    omega

/-- C8, witness: with the settings table of the source, a clock of 333,500,000 Hz,
offset 9 and a status register that always reads 1, the function returns
XST_SUCCESS after 255 reads of channel 2 with the interval bit set. -/
theorem C8_witness_offset_9 :
    ∃ run, TmrCtrExample xttcps 333500000 SettingsTable (fun _ => 1) 255 9 = some run ∧
      run.result = Outcome.XST_SUCCESS ∧
      run.trace.countP (Event.intervalEvent xttcps (TimerCounterBaseAddr.getD 2 0))
        = MAX_LOOP_COUNT := by
  obtain ⟨run, hrun, hres⟩ := run_offset_9_returns
  exact ⟨run, hrun, hres,
    (C8_only_last_channel_polled xttcps 333500000 SettingsTable (fun _ => 1) 255 9 run
      hrun hres).2.2⟩

/-- C9: for u32 masks INT, MATCH and RST that are disjoint from the masks DIS and
EN_WAVE, the value ~(DIS | EN_WAVE) & (INT | MATCH | RST) that TmrCtrExample writes
to the counter control register is INT | MATCH | RST: the interval, match and reset
bits are set, the disable bit and the active-low waveform enable bit are clear.
Every write of a pass to the counter control register carries this value, whatever
the clock, the channel and the settings entry, and a pass that goes on has made that
write. -/
theorem C9_counter_control_value (hw : XTtcPsHw)
    (hINT : hw.XTTCPS_CNT_CNTRL_INT_MASK < 2 ^ 32)
    (hMATCH : hw.XTTCPS_CNT_CNTRL_MATCH_MASK < 2 ^ 32)
    (hRST : hw.XTTCPS_CNT_CNTRL_RST_MASK < 2 ^ 32)
    (hDI : hw.XTTCPS_CNT_CNTRL_DIS_MASK &&& hw.XTTCPS_CNT_CNTRL_INT_MASK = 0)
    (hDM : hw.XTTCPS_CNT_CNTRL_DIS_MASK &&& hw.XTTCPS_CNT_CNTRL_MATCH_MASK = 0)
    (hDR : hw.XTTCPS_CNT_CNTRL_DIS_MASK &&& hw.XTTCPS_CNT_CNTRL_RST_MASK = 0)
    (hEI : hw.XTTCPS_CNT_CNTRL_EN_WAVE_MASK &&& hw.XTTCPS_CNT_CNTRL_INT_MASK = 0)
    (hEM : hw.XTTCPS_CNT_CNTRL_EN_WAVE_MASK &&& hw.XTTCPS_CNT_CNTRL_MATCH_MASK = 0)
    (hER : hw.XTTCPS_CNT_CNTRL_EN_WAVE_MASK &&& hw.XTTCPS_CNT_CNTRL_RST_MASK = 0) :
    cntCntrlValue hw = hw.XTTCPS_CNT_CNTRL_INT_MASK ||| hw.XTTCPS_CNT_CNTRL_MATCH_MASK
      ||| hw.XTTCPS_CNT_CNTRL_RST_MASK ∧
    cntCntrlValue hw &&& hw.XTTCPS_CNT_CNTRL_INT_MASK = hw.XTTCPS_CNT_CNTRL_INT_MASK ∧
    cntCntrlValue hw &&& hw.XTTCPS_CNT_CNTRL_MATCH_MASK
      = hw.XTTCPS_CNT_CNTRL_MATCH_MASK ∧
    cntCntrlValue hw &&& hw.XTTCPS_CNT_CNTRL_RST_MASK = hw.XTTCPS_CNT_CNTRL_RST_MASK ∧
    cntCntrlValue hw &&& hw.XTTCPS_CNT_CNTRL_DIS_MASK = 0 ∧
    cntCntrlValue hw &&& hw.XTTCPS_CNT_CNTRL_EN_WAVE_MASK = 0 ∧
    (∀ (clk base : Nat) (entry : Option TmrCntrSetup) (b v : Nat),
      Event.write b Reg.CNT_CNTRL v ∈ (configChannel hw clk base entry).trace →
        v = cntCntrlValue hw) ∧
    (∀ (clk base : Nat) (entry : Option TmrCntrSetup),
      (configChannel hw clk base entry).stop = none →
        Event.write base Reg.CNT_CNTRL (cntCntrlValue hw)
          ∈ (configChannel hw clk base entry).trace) := by
  have hval : cntCntrlValue hw = hw.XTTCPS_CNT_CNTRL_INT_MASK
      ||| hw.XTTCPS_CNT_CNTRL_MATCH_MASK ||| hw.XTTCPS_CNT_CNTRL_RST_MASK :=
    not32_and_of_disjoint
      (Nat.or_lt_two_pow (Nat.or_lt_two_pow hINT hMATCH) hRST)
      (or_and_or3_eq_zero hDI hDM hDR hEI hEM hER)
  have hself := or3_and_self hw.XTTCPS_CNT_CNTRL_INT_MASK
    hw.XTTCPS_CNT_CNTRL_MATCH_MASK hw.XTTCPS_CNT_CNTRL_RST_MASK
  refine ⟨hval, ?_, ?_, ?_, ?_, ?_, ?_, ?_⟩
  · rw [hval]; exact hself.1
  · rw [hval]; exact hself.2.1
  · rw [hval]; exact hself.2.2
  · rw [hval]; exact or3_and_of_disjoint hDI hDM hDR
  · rw [hval]; exact or3_and_of_disjoint hEI hEM hER
  · intro clk base entry b v h
    exact cntCntrl_write_value h
  · intro clk base entry h
    obtain ⟨s, iv, _, _, _, _, ht⟩ := configChannel_stop_none h
    rw [ht]
    simp

/-- C9, witness: with the XTtcPs masks DIS = 0x01, INT = 0x02, MATCH = 0x08,
RST = 0x10 and EN_WAVE = 0x20 the value written is 0x1A. -/
theorem C9_witness_0x1A : cntCntrlValue xttcps = 0x1A :=
  (C9_counter_control_value xttcps (by decide) (by decide) (by decide) (by decide)
    (by decide) (by decide) (by decide) (by decide) (by decide)).1.trans (by decide)

/-- C10: PrescalerSettings has exactly 17 entries; the entry at index i is 2^(i+1)
for every i in 0..15, and the entry at index 16 is 1. -/
theorem C10_prescaler_settings_table :
    PrescalerSettings.length = 17 ∧
    (∀ i : Fin 16, PrescalerSettings[i.val]? = some (2 ^ (i.val + 1))) ∧
    PrescalerSettings[16]? = some 1 := by
  decide

/-- C16, the code at the failing input: offset 13 passes the boundary check,
13 + 2 not being above the table size 15, although index 13 + 2 lies outside the
table; the third pass of the configuration loop then reads outside SettingsTable.
The check lets through exactly the offsets up to 13, while the three indices are
inside the table exactly for the offsets up to 12. -/
theorem C16_offset_13_passes_guard_and_reads_outside :
    SETTINGS_TABLE_SIZE SettingsTable = 15 ∧
    ¬ (13 + 2 > SETTINGS_TABLE_SIZE SettingsTable) ∧
    SettingsTable[13 + 2]? = none ∧
    (TmrCtrExample xttcps 333500000 SettingsTable (fun _ => 0) 0 13).map
      (fun run => run.result) = some Outcome.undefined ∧
    (∀ off : Nat,
      (¬ (off + 2 > SETTINGS_TABLE_SIZE SettingsTable) ↔ off ≤ 13) ∧
      (off + 2 < SETTINGS_TABLE_SIZE SettingsTable ↔ off ≤ 12)) := by
  have hsize : SETTINGS_TABLE_SIZE SettingsTable = 15 := rfl
  refine ⟨hsize, by decide, by decide, by decide, ?_⟩
  intro off
  rw [hsize]
  omega

/-- C17, the code at the failing input: MAX_LOOP_COUNT is 0xFF = 255, not 256.  With
the settings table of the source at offset 9, a clock of 333,500,000 Hz and a status
register that always reads 1, the function has returned XST_SUCCESS within 255
polling iterations, after 255 reads with the interval bit set, and has not
returned within 254. -/
theorem C17_returns_after_255_interval_reads :
    MAX_LOOP_COUNT = 255 ∧
    (∃ run, TmrCtrExample xttcps 333500000 SettingsTable (fun _ => 1) 255 9 = some run ∧
      run.result = Outcome.XST_SUCCESS ∧
      run.trace.countP (Event.intervalEvent xttcps (TimerCounterBaseAddr.getD 2 0))
        = 255) ∧
    TmrCtrExample xttcps 333500000 SettingsTable (fun _ => 1) 254 9 = none := by
  refine ⟨rfl, ?_, ?_⟩
  · obtain ⟨run, hrun, hres⟩ := run_offset_9_returns
    exact ⟨run, hrun, hres, TmrCtrExample_success_count hrun hres⟩
  · have h1 : intervalBitSet xttcps (u32 1) = true := by decide
    have h := TmrCtrExample_returns_iff (fun _ => 1) 254
      (by decide : ConfigSucceeds xttcps 333500000 SettingsTable 9)
    rw [intervalHits_of_always xttcps (fun _ => 1) (fun _ => h1)] at h
    cases hr : TmrCtrExample xttcps 333500000 SettingsTable (fun _ => 1) 254 9 with
    | none => rfl
    | some run =>
      rw [hr] at h
      exact absurd (h.mp rfl) (by decide)

/-- C18: for every prescaler value p below 16 the value written to the clock control
register, ((p << 1) & 0x1E) | 0x01, is 2 * p + 1: it carries p in bits 4:1 and has
the prescaler enable bit set, and PrescalerSettings[p] = 2^(p+1) is the divisor of
the interval computation.  For every prescaler value from 16 on the value written
is 0.  The value is the first access of the pass of the channel. -/
theorem C18_clock_control_value (s : TmrCntrSetup) :
    (s.PrescalerValue < 16 →
      clkCntrlValue xttcps s = ((s.PrescalerValue <<< 1) &&& 0x1E) ||| 0x01 ∧
      clkCntrlValue xttcps s = 2 * s.PrescalerValue + 1 ∧
      (clkCntrlValue xttcps s >>> 1) &&& 0xF = s.PrescalerValue ∧
      clkCntrlValue xttcps s &&& 0x01 = 0x01 ∧
      PrescalerSettings[s.PrescalerValue]? = some (2 ^ (s.PrescalerValue + 1)) ∧
      intervalDivisor s = some (u32 (2 ^ (s.PrescalerValue + 1) * s.OutputHz))) ∧
    (16 ≤ s.PrescalerValue → clkCntrlValue xttcps s = 0) ∧
    (∀ clk base : Nat, ∃ rest,
      (configChannel xttcps clk base (some s)).trace
        = Event.write base Reg.CLK_CNTRL (clkCntrlValue xttcps s) :: rest) := by
  obtain ⟨hz, d, p⟩ := s
  refine ⟨?_, ?_, ?_⟩
  · intro h
    simp only at h
    have hp := clkCntrlValue_below_16 ⟨p, h⟩
    simp only at hp
    rw [clkCntrlValue_congr xttcps hz d p]
    refine ⟨hp.1, hp.2.1, hp.2.2.1, hp.2.2.2.1, hp.2.2.2.2, ?_⟩
    simp only [intervalDivisor, hp.2.2.2.2]
  · intro h
    simp only at h
    have : ¬ 16 > p := by omega
    simp [clkCntrlValue, this]
  · intro clk base
    cases hiv : intervalValue clk ⟨hz, d, p⟩ with
    | none => exact ⟨[], by simp [configChannel, hiv]⟩
    | some iv =>
      rw [configChannel_of_interval xttcps clk base _ iv hiv]
      split
      · exact ⟨_, rfl⟩
      · split <;> exact ⟨_, rfl⟩

/-- C18, witness: the entry 400 Hz / 12 percent / prescaler 1 of the settings table
writes 3 to the clock control register and divides by 4. -/
theorem C18_witness_prescaler_1 :
    clkCntrlValue xttcps ⟨400, 12, 1⟩ = 3 ∧ PrescalerSettings[1]? = some 4 :=
  have h := (C18_clock_control_value ⟨400, 12, 1⟩).1 (by decide)
  ⟨h.2.1, h.2.2.2.2.1⟩

/-- C20: SettingsTable has 15 entries and every one of them is well formed: positive
OutputHz, duty cycle at most 100, prescaler value at most 16, and a product
PrescalerSettings[PrescalerValue] * OutputHz below 2^32, so that the 32-bit divisor
of the interval computation is that product and is not zero. -/
theorem C20_settings_table_well_formed :
    SettingsTable.length = 15 ∧
    (∀ s ∈ SettingsTable,
      TmrCntrSetup.WellFormed s ∧
      PrescalerSettings[s.PrescalerValue]?
        = some (PrescalerSettings.getD s.PrescalerValue 0) ∧
      intervalDivisor s
        = some (PrescalerSettings.getD s.PrescalerValue 0 * s.OutputHz) ∧
      PrescalerSettings.getD s.PrescalerValue 0 * s.OutputHz ≠ 0) := by
  decide

/-! ## Evaluation checks -/

example : intervalValue 333500000 ⟨100000, 50, 1⟩ = some 833 := by decide
example : matchValue 833 50 = 416 := by decide
example : intervalValue 333500000 ⟨10, 50, 6⟩ = some 260546 := by decide

end TtcThreeWaves

namespace AxiTimerPwm

/-! ## Auxiliary facts: the sine PWM template -/

theorem sine_length : sine.length = SINE_TABLE_SIZE := rfl

/-- A serviced tick with the cursor inside the table. -/
theorem servicedTick_of_lt (s : State) (hpos : s.pos < SINE_TABLE_SIZE) :
    ∃ h, sine[s.pos]? = some h ∧
      servicedTick s = some
        { s with HighTime := h,
                 PrivateTimerHit := FALSE,
                 pos := (s.pos + 1) % SINE_TABLE_SIZE,
                 calls := s.calls ++
                   [Call.XTmrCtr_PwmDisable,
                    Call.XTmrCtr_PwmConfigure PWM_PERIOD h,
                    Call.XTmrCtr_PwmEnable] } := by
  have hlen : s.pos < sine.length := by rw [sine_length]; exact hpos
  refine ⟨sine[s.pos], List.getElem?_eq_getElem hlen, ?_⟩
  have hne : (TRUE : Int) ≠ 0 := by decide
  simp only [servicedTick, mainLoopPass, PrivateTimerIntrHandler, hne, ne_eq,
    not_false_eq_true, if_true, serviceTick, List.getElem?_eq_getElem hlen]

/-- After k serviced ticks the cursor has advanced by k modulo the table size. -/
theorem servicedTicks_pos :
    ∀ (k : Nat) (s : State), s.pos < SINE_TABLE_SIZE →
      ∃ sk, servicedTicks k s = some sk ∧ sk.pos = (s.pos + k) % SINE_TABLE_SIZE := by
  intro k
  induction k with
  | zero =>
    intro s hpos
    exact ⟨s, rfl, by simp only [Nat.add_zero]; exact (Nat.mod_eq_of_lt hpos).symm⟩
  | succ k ih =>
    intro s hpos
    obtain ⟨h, _, hstep⟩ := servicedTick_of_lt s hpos
    have hlt : (s.pos + 1) % SINE_TABLE_SIZE < SINE_TABLE_SIZE :=
      Nat.mod_lt _ (by decide)
    obtain ⟨sk, hsk, hp⟩ := ih
      { s with HighTime := h,
               PrivateTimerHit := FALSE,
               pos := (s.pos + 1) % SINE_TABLE_SIZE,
               calls := s.calls ++
                 [Call.XTmrCtr_PwmDisable,
                  Call.XTmrCtr_PwmConfigure PWM_PERIOD h,
                  Call.XTmrCtr_PwmEnable] } hlt
    refine ⟨sk, ?_, ?_⟩
    · simp only [servicedTicks, hstep]
      exact hsk
    · rw [hp]
      simp only [SINE_TABLE_SIZE]
      omega

theorem intrEnabledAfter_append (mask : Nat) :
    ∀ (l1 l2 : List Call) (before : Bool),
      intrEnabledAfter mask before (l1 ++ l2)
        = intrEnabledAfter mask (intrEnabledAfter mask before l1) l2 := by
  intro l1
  induction l1 with
  | nil => intro l2 before; rfl
  | cons a l1 ih =>
    intro l2 before
    cases a <;> exact ih l2 _

/-- The handler of the switches when the status read has the bits of SW_INT_MASK. -/
theorem SW_Intr_Handler_serviced (c : Params) (status sw : Nat) (s : State)
    (h : status &&& c.SW_INT_MASK = c.SW_INT_MASK) :
    SW_Intr_Handler c status sw s =
      { s with
        SwitchValue := int_of_u32 sw,
        PrivateTimerLoadValue := SW_Intr_selectLoadValue c (int_of_u32 sw),
        calls := s.calls ++
          [Call.XGpio_InterruptDisable c.SW_INT_MASK,
           Call.XGpio_InterruptGetStatus status,
           Call.XGpio_DiscreteRead SW_CHANNEL sw,
           Call.XGpio_DiscreteWrite LED_CHANNEL (int_of_u32 sw),
           Call.XScuTimer_Stop,
           Call.XScuTimer_LoadTimer (SW_Intr_selectLoadValue c (int_of_u32 sw)),
           Call.XScuTimer_Start,
           Call.XGpio_InterruptClear c.SW_INT_MASK,
           Call.XGpio_InterruptEnable c.SW_INT_MASK] } := by
  simp [SW_Intr_Handler, h]

/-- The handler of the switches when the status read lacks a bit of SW_INT_MASK. -/
theorem SW_Intr_Handler_ignored (c : Params) (status sw : Nat) (s : State)
    (h : status &&& c.SW_INT_MASK ≠ c.SW_INT_MASK) :
    SW_Intr_Handler c status sw s =
      { s with
        calls := s.calls ++
          [Call.XGpio_InterruptDisable c.SW_INT_MASK,
           Call.XGpio_InterruptGetStatus status] } := by
  simp [SW_Intr_Handler, h]

/-! ## The claims on the sine PWM template -/

/-- C11: with N = SINE_TABLE_SIZE = 50 and a cursor pos inside the table, a serviced
tick writes the high time sine[pos], clears PrivateTimerHit and advances the cursor
to (pos + 1) mod N, which is again inside the table; after k serviced ticks the
cursor is (pos + k) mod N, so it visits every index of 0..N-1 in increasing order
with wrap to 0, and it is back at its starting value after N serviced ticks and not
before. -/
theorem C11_cursor_cycles_through_table (s : State) (hpos : s.pos < SINE_TABLE_SIZE) :
    SINE_TABLE_SIZE = 50 ∧
    (∃ h, sine[s.pos]? = some h ∧
      servicedTick s = some
        { s with HighTime := h,
                 PrivateTimerHit := FALSE,
                 pos := (s.pos + 1) % SINE_TABLE_SIZE,
                 calls := s.calls ++
                   [Call.XTmrCtr_PwmDisable,
                    Call.XTmrCtr_PwmConfigure PWM_PERIOD h,
                    Call.XTmrCtr_PwmEnable] }) ∧
    (s.pos + 1) % SINE_TABLE_SIZE < SINE_TABLE_SIZE ∧
    (∀ k, ∃ sk, servicedTicks k s = some sk ∧
      sk.pos = (s.pos + k) % SINE_TABLE_SIZE) ∧
    (∀ j, j < SINE_TABLE_SIZE →
      ∃ k sk, k < SINE_TABLE_SIZE ∧ servicedTicks k s = some sk ∧ sk.pos = j) ∧
    (∃ sN, servicedTicks SINE_TABLE_SIZE s = some sN ∧ sN.pos = s.pos) ∧
    (∀ k sk, 0 < k → k < SINE_TABLE_SIZE → servicedTicks k s = some sk →
      sk.pos ≠ s.pos) := by
  have hN : SINE_TABLE_SIZE = 50 := rfl
  refine ⟨hN, servicedTick_of_lt s hpos, Nat.mod_lt _ (by decide),
    fun k => servicedTicks_pos k s hpos, ?_, ?_, ?_⟩
  · intro j hj
    obtain ⟨sk, hsk, hp⟩ :=
      servicedTicks_pos ((j + SINE_TABLE_SIZE - s.pos) % SINE_TABLE_SIZE) s hpos
    refine ⟨_, sk, Nat.mod_lt _ (by decide), hsk, ?_⟩
    rw [hp]
    rw [hN] at hpos hj ⊢
    omega
  · obtain ⟨sN, hsN, hp⟩ := servicedTicks_pos SINE_TABLE_SIZE s hpos
    refine ⟨sN, hsN, ?_⟩
    rw [hp]
    rw [hN] at hpos ⊢
    omega
  · intro k sk hk0 hkN hsk
    obtain ⟨sk1, hsk1, hp⟩ := servicedTicks_pos k s hpos
    rw [hsk, Option.some.injEq] at hsk1
    subst hsk1
    rw [hp]
    rw [hN] at hpos hkN ⊢
    omega

/-- C11, witness: starting with the cursor at 0 as main does, the cursor is back at 0
after 50 serviced ticks. -/
theorem C11_witness_start_at_0 :
    ∃ sN, servicedTicks SINE_TABLE_SIZE ⟨0, 0, 0, 0, 0, 0, 0, []⟩ = some sN ∧
      sN.pos = 0 :=
  (C11_cursor_cycles_through_table ⟨0, 0, 0, 0, 0, 0, 0, []⟩ (by decide)).2.2.2.2.2.1

/-- C12: at both places where the selector is mapped to a load value, the first
switch reading of main and SW_Intr_Handler, the selector values 0, 1, 2 and 3 select
the load values of the 60 Hz, 100 Hz, 500 Hz and 1 kHz waves, and every other
selector value selects TIMER_LOAD_VALUE_1; the two mappings agree, and the load
value stored depends on the value read from the switches only. -/
theorem C12_selector_to_load_value (c : Params) (v : Int) :
    (main_selectLoadValue c 0 = TIMER_LOAD_VALUE_60 ∧
      main_selectLoadValue c 1 = c.TIMER_LOAD_VALUE_100 ∧
      main_selectLoadValue c 2 = c.TIMER_LOAD_VALUE_500 ∧
      main_selectLoadValue c 3 = c.TIMER_LOAD_VALUE_1K) ∧
    (SW_Intr_selectLoadValue c 0 = TIMER_LOAD_VALUE_60 ∧
      SW_Intr_selectLoadValue c 1 = c.TIMER_LOAD_VALUE_100 ∧
      SW_Intr_selectLoadValue c 2 = c.TIMER_LOAD_VALUE_500 ∧
      SW_Intr_selectLoadValue c 3 = c.TIMER_LOAD_VALUE_1K) ∧
    ((v ≠ 0 ∧ v ≠ 1 ∧ v ≠ 2 ∧ v ≠ 3) →
      main_selectLoadValue c v = c.TIMER_LOAD_VALUE_1 ∧
      SW_Intr_selectLoadValue c v = c.TIMER_LOAD_VALUE_1) ∧
    main_selectLoadValue c v = SW_Intr_selectLoadValue c v ∧
    (∀ (sw : Nat) (s : State),
      (main_firstReading c sw s).PrivateTimerLoadValue
        = main_selectLoadValue c (int_of_u32 sw)) ∧
    (∀ (status sw : Nat) (s : State),
      status &&& c.SW_INT_MASK = c.SW_INT_MASK →
      (SW_Intr_Handler c status sw s).PrivateTimerLoadValue
        = SW_Intr_selectLoadValue c (int_of_u32 sw)) := by
  refine ⟨⟨rfl, rfl, rfl, rfl⟩, ⟨rfl, rfl, rfl, rfl⟩, ?_, rfl, fun _ _ => rfl, ?_⟩
  · rintro ⟨h0, h1, h2, h3⟩
    simp [main_selectLoadValue, SW_Intr_selectLoadValue, h0, h1, h2, h3]
  · intro status sw s h
    rw [SW_Intr_Handler_serviced c status sw s h]

/-- C12, witness: with load values 11, 22, 33 and 44 for the 100 Hz, 500 Hz, 1 kHz
and 1 Hz waves, the selector value 7 selects 44 at both places. -/
theorem C12_witness_selector_7 :
    main_selectLoadValue ⟨11, 22, 33, 44, 2⟩ 7 = 44 ∧
    SW_Intr_selectLoadValue ⟨11, 22, 33, 44, 2⟩ 7 = 44 :=
  (C12_selector_to_load_value ⟨11, 22, 33, 44, 2⟩ 7).2.2.1
    ⟨by decide, by decide, by decide, by decide⟩

/-- C13, counterexample: with SW_INT_MASK = 2 and an interrupt status that reads 0,
the handler returns after disabling the interrupt and reading the status: it makes
no call to the private timer, clears no status, and an interrupt that was enabled on
entry is not enabled on return. -/
theorem C13_counterexample_status_without_ch2 :
    (SW_Intr_Handler ⟨11, 22, 33, 44, 2⟩ 0 1 ⟨0, 0, 0, 0, 0, 0, 0, []⟩).calls
      = [Call.XGpio_InterruptDisable 2, Call.XGpio_InterruptGetStatus 0] ∧
    intrEnabledAfter 2 true
      (SW_Intr_Handler ⟨11, 22, 33, 44, 2⟩ 0 1 ⟨0, 0, 0, 0, 0, 0, 0, []⟩).calls = false ∧
    ¬ Call.XScuTimer_Stop ∈
      (SW_Intr_Handler ⟨11, 22, 33, 44, 2⟩ 0 1 ⟨0, 0, 0, 0, 0, 0, 0, []⟩).calls := by
  decide

/-- C13, amended: every invocation of SW_Intr_Handler first disables the interrupt of
SW_INT_MASK.  When the status it reads has the bits of SW_INT_MASK, it reads the
switches, writes them to the LEDs, stops the private timer, loads the newly selected
value and starts the timer, in that order, then clears the status and enables the
interrupt, which is enabled on return.  When the status lacks a bit of SW_INT_MASK,
it makes no call to the private timer and leaves SwitchValue and
PrivateTimerLoadValue as they were. -/
theorem C13_handler_services_selector_interrupt (c : Params) (status sw : Nat)
    (s : State) :
    (∃ rest, (SW_Intr_Handler c status sw s).calls
      = s.calls ++ Call.XGpio_InterruptDisable c.SW_INT_MASK :: rest) ∧
    (status &&& c.SW_INT_MASK = c.SW_INT_MASK →
      (SW_Intr_Handler c status sw s).calls = s.calls ++
        [Call.XGpio_InterruptDisable c.SW_INT_MASK,
         Call.XGpio_InterruptGetStatus status,
         Call.XGpio_DiscreteRead SW_CHANNEL sw,
         Call.XGpio_DiscreteWrite LED_CHANNEL (int_of_u32 sw),
         Call.XScuTimer_Stop,
         Call.XScuTimer_LoadTimer (SW_Intr_selectLoadValue c (int_of_u32 sw)),
         Call.XScuTimer_Start,
         Call.XGpio_InterruptClear c.SW_INT_MASK,
         Call.XGpio_InterruptEnable c.SW_INT_MASK] ∧
      (SW_Intr_Handler c status sw s).SwitchValue = int_of_u32 sw ∧
      (SW_Intr_Handler c status sw s).PrivateTimerLoadValue
        = SW_Intr_selectLoadValue c (int_of_u32 sw) ∧
      ∀ before, intrEnabledAfter c.SW_INT_MASK before
        (SW_Intr_Handler c status sw s).calls = true) ∧
    (status &&& c.SW_INT_MASK ≠ c.SW_INT_MASK →
      (∃ new, (SW_Intr_Handler c status sw s).calls = s.calls ++ new ∧
        ∀ call, call ∈ new → Call.isScuTimer call = false) ∧
      (SW_Intr_Handler c status sw s).SwitchValue = s.SwitchValue ∧
      (SW_Intr_Handler c status sw s).PrivateTimerLoadValue
        = s.PrivateTimerLoadValue) := by
  refine ⟨?_, ?_, ?_⟩
  · by_cases h : status &&& c.SW_INT_MASK = c.SW_INT_MASK
    · rw [SW_Intr_Handler_serviced c status sw s h]
      exact ⟨_, rfl⟩
    · rw [SW_Intr_Handler_ignored c status sw s h]
      exact ⟨_, rfl⟩
  · intro h
    rw [SW_Intr_Handler_serviced c status sw s h]
    refine ⟨rfl, rfl, rfl, ?_⟩
    intro before
    simp only [intrEnabledAfter_append, intrEnabledAfter, if_true]
  · intro h
    rw [SW_Intr_Handler_ignored c status sw s h]
    refine ⟨⟨_, rfl, ?_⟩, rfl, rfl⟩
    intro call hcall
    simp only [List.mem_cons, List.mem_singleton, List.not_mem_nil, or_false] at hcall
    rcases hcall with rfl | rfl <;> rfl

/-- C13, witness: with SW_INT_MASK = 2, a status that reads 2 and switches that read
0, the handler loads the value of the 60 Hz wave between stopping and starting the
private timer, and the interrupt is enabled on return. -/
theorem C13_witness_status_with_ch2 :
    (SW_Intr_Handler ⟨11, 22, 33, 44, 2⟩ 2 0 ⟨0, 0, 0, 0, 0, 0, 0, []⟩).calls =
      [Call.XGpio_InterruptDisable 2,
       Call.XGpio_InterruptGetStatus 2,
       Call.XGpio_DiscreteRead SW_CHANNEL 0,
       Call.XGpio_DiscreteWrite LED_CHANNEL (int_of_u32 0),
       Call.XScuTimer_Stop,
       Call.XScuTimer_LoadTimer (SW_Intr_selectLoadValue ⟨11, 22, 33, 44, 2⟩ (int_of_u32 0)),
       Call.XScuTimer_Start,
       Call.XGpio_InterruptClear 2,
       Call.XGpio_InterruptEnable 2] :=
  ((C13_handler_services_selector_interrupt ⟨11, 22, 33, 44, 2⟩ 2 0
    ⟨0, 0, 0, 0, 0, 0, 0, []⟩).2.1 (by decide)).1

/-- C14: PrivateTimerIntrHandler changes nothing except PrivateTimerHit, which it
sets to TRUE, so that running it twice is running it once.  SW_Intr_Handler leaves
the table cursor pos, HighTime and PrivateTimerHit unchanged and makes no call to
the AXI timer, which carries the PWM; the sine table is a constant. -/
theorem C14_handlers_keep_foreground_state (c : Params) (status sw : Nat) (s : State) :
    PrivateTimerIntrHandler s = { s with PrivateTimerHit := TRUE } ∧
    PrivateTimerIntrHandler (PrivateTimerIntrHandler s) = PrivateTimerIntrHandler s ∧
    (SW_Intr_Handler c status sw s).pos = s.pos ∧
    (SW_Intr_Handler c status sw s).HighTime = s.HighTime ∧
    (SW_Intr_Handler c status sw s).PrivateTimerHit = s.PrivateTimerHit ∧
    (∃ new, (SW_Intr_Handler c status sw s).calls = s.calls ++ new ∧
      ∀ call, call ∈ new → Call.isAxiTimer call = false) := by
  refine ⟨rfl, rfl, ?_⟩
  by_cases h : status &&& c.SW_INT_MASK = c.SW_INT_MASK
  · rw [SW_Intr_Handler_serviced c status sw s h]
    refine ⟨rfl, rfl, rfl, _, rfl, ?_⟩
    intro call hcall
    simp only [List.mem_cons, List.mem_singleton, List.not_mem_nil, or_false] at hcall
    rcases hcall with rfl | rfl | rfl | rfl | rfl | rfl | rfl | rfl | rfl <;> rfl
  · rw [SW_Intr_Handler_ignored c status sw s h]
    refine ⟨rfl, rfl, rfl, _, rfl, ?_⟩
    intro call hcall
    simp only [List.mem_cons, List.mem_singleton, List.not_mem_nil, or_false] at hcall
    rcases hcall with rfl | rfl <;> rfl

/-- C15: the sine table has exactly SINE_TABLE_SIZE = 50 entries, and every entry is
positive and below 1,000,000, the period in ns of a PWM of 1 kHz. -/
theorem C15_sine_table_entries :
    SINE_TABLE_SIZE = 50 ∧ sine.length = SINE_TABLE_SIZE ∧
    (∀ x ∈ sine, 0 < x ∧ x < 1000000) := by
  decide

/-- C19: with PERIPHCLK = 333,500,000 Hz and TIMER_PRESCALER = 1, the load value
TIMER_LOAD_VALUE_60 = 55582 gives 60 * 50 = 3000 interrupts per second when the
period of the private timer is (TIMER_PRESCALER + 1) * (load + 1) clock cycles:
55582 + 1 = floor(333,500,000 / (2 * 3000)), that is
6000 * 55583 <= 333,500,000 < 6000 * 55584. -/
theorem C19_load_value_60_hz :
    TIMER_LOAD_VALUE_60 = 55582 ∧
    (TIMER_PRESCALER + 1) * (60 * SINE_TABLE_SIZE) = 6000 ∧
    TIMER_LOAD_VALUE_60 + 1
      = ((PERIPHCLK / ((TIMER_PRESCALER + 1) * (60 * SINE_TABLE_SIZE)) : Nat) : Int) ∧
    6000 * 55583 ≤ PERIPHCLK ∧ PERIPHCLK < 6000 * 55584 := by
  decide

end AxiTimerPwm
